import Mathlib

/-!
# Verification of the moaui interactive image-annotation core

This file gives a shallow embedding, over exact rationals `ℚ`, of the
annotation core implemented in `src/lib/Group.svelte`: the coordinate
transforms between image space, the visible source rectangle and the
rendering surface; the group-statistics engine; calibration; and the
group-management operations.  JavaScript numbers are modelled as `ℚ`
(claims stated "to floating-point precision" are settled over exact
arithmetic).  The irrational primitives `Math.sqrt` and the
`atan2`-based bearing computation have no exact rational counterpart,
so they enter as an explicit `FloatOps` parameter; theorems that
depend on an actual square-root value carry pointwise exactness
hypotheses for the concrete radicand involved.
-/

namespace Moaui

/-- A 2-D point, image-space or surface-space (`interface Point`). -/
structure Pt where
  x : ℚ
  y : ℚ
  deriving Repr, DecidableEq

/-- The cached visible source rectangle (`interface ViewportState`). -/
structure ViewportState where
  sx : ℚ
  sy : ℚ
  sWidth : ℚ
  sHeight : ℚ
  deriving Repr, DecidableEq

/-- The cached letterbox destination rectangle in rendering-buffer
coordinates (`letterboxParams`). -/
structure LetterboxParams where
  dx : ℚ
  dy : ℚ
  dWidth : ℚ
  dHeight : ℚ
  deriving Repr, DecidableEq

/-- Translation of `imageToCanvasCoords` from `Group.svelte` (lines 336–350): maps an
image-space point into rendering-buffer coordinates through the cached
source rectangle `vp` and letterbox destination rectangle `lb`.  The
source's `!lastViewport`/`!canvasElement` guards are modelled by the
arguments being present; the `dWidth <= 0 || dHeight <= 0` guard is
kept. -/
def imageToCanvasCoords (vp : ViewportState) (lb : LetterboxParams) (imgP : Pt) :
    Option Pt :=
  if lb.dWidth ≤ 0 ∨ lb.dHeight ≤ 0 then none
  else
    let relX := if 0 < vp.sWidth then (imgP.x - vp.sx) / vp.sWidth else 0
    let relY := if 0 < vp.sHeight then (imgP.y - vp.sy) / vp.sHeight else 0
    some ⟨lb.dx + relX * lb.dWidth, lb.dy + relY * lb.dHeight⟩

/-- Translation of `canvasToImageCoords` from `Group.svelte` (lines 351–390): maps a
pointer position in CSS display coordinates back to image coordinates.
`displayW/displayH` are `canvasElement.clientWidth/clientHeight`,
`bufferW/bufferH` are `canvasElement.width/height`, `imgW/imgH` the
bitmap dimensions.  The falsy checks `!clientWidth`/`!clientHeight`
are `= 0` tests; a pointer strictly outside the letterbox destination
rectangle yields `none`; the result is clamped to the image bounds. -/
def canvasToImageCoords (vp : ViewportState) (lb : LetterboxParams)
    (displayW displayH bufferW bufferH imgW imgH : ℚ) (cvsPtrP : Pt) :
    Option Pt :=
  if displayW = 0 ∨ displayH = 0 ∨ lb.dWidth ≤ 0 ∨ lb.dHeight ≤ 0 then none
  else
    let ptrXBuf := cvsPtrP.x / displayW * bufferW
    let ptrYBuf := cvsPtrP.y / displayH * bufferH
    if ptrXBuf < lb.dx ∨ ptrXBuf > lb.dx + lb.dWidth ∨
        ptrYBuf < lb.dy ∨ ptrYBuf > lb.dy + lb.dHeight then none
    else
      let relX := if 0 < lb.dWidth then (ptrXBuf - lb.dx) / lb.dWidth else 0
      let relY := if 0 < lb.dHeight then (ptrYBuf - lb.dy) / lb.dHeight else 0
      let imgX := vp.sx + relX * vp.sWidth
      let imgY := vp.sy + relY * vp.sHeight
      some ⟨max 0 (min imgX imgW), max 0 (min imgY imgH)⟩

/-- Translation of `calculateViewport` from `Group.svelte` (lines 393–424): computes
the visible source rectangle from the view center, view scale and the
display size, clamping to the image bounds.  The `!clientWidth` falsy
guards are `= 0` tests. -/
def calculateViewport (imgW imgH displayW displayH viewScale : ℚ)
    (viewCenter : Pt) : Option ViewportState :=
  if displayW = 0 ∨ displayH = 0 then none
  else
    let sWidth := displayW / viewScale
    let sHeight := displayH / viewScale
    let sx := viewCenter.x - sWidth / 2
    let sy := viewCenter.y - sHeight / 2
    let sWidth := if sx < 0 then sWidth + sx else sWidth
    let sx := if sx < 0 then 0 else sx
    let sHeight := if sy < 0 then sHeight + sy else sHeight
    let sy := if sy < 0 then 0 else sy
    let sWidth := if sx + sWidth > imgW then imgW - sx else sWidth
    let sHeight := if sy + sHeight > imgH then imgH - sy else sHeight
    let sWidth := max 1 sWidth
    let sHeight := max 1 sHeight
    let sx := max 0 (min sx (imgW - sWidth))
    let sy := max 0 (min sy (imgH - sHeight))
    some ⟨sx, sy, sWidth, sHeight⟩

/-- Per-axis clamping behaviour of `calculateViewport`, abstracted to
one dimension: the hypotheses record the successive values the source
computes; the conclusion gives the minimum size, in-bounds placement,
and exactness when the ideal centered interval already fits. -/
lemma viewportClamp1D (L c w s0 w1 x1 w2 w3 x2 : ℚ)
    (hL : 1 ≤ L) (hw : 0 < w)
    (hs0 : s0 = c - w / 2)
    (hw1 : w1 = if s0 < 0 then w + s0 else w)
    (hx1 : x1 = if s0 < 0 then 0 else s0)
    (hw2 : w2 = if x1 + w1 > L then L - x1 else w1)
    (hw3 : w3 = max 1 w2)
    (hx2 : x2 = max 0 (min x1 (L - w3))) :
    1 ≤ w3 ∧ 0 ≤ x2 ∧ x2 + w3 ≤ L ∧
      (0 ≤ s0 → c + w / 2 ≤ L → 1 ≤ w → x2 = s0 ∧ w3 = w) := by
  have hx1nonneg : 0 ≤ x1 := by
    rw [hx1]; split
    · exact le_refl 0
    · rename_i h; exact not_lt.mp h
  have hw2L : w2 ≤ L := by
    rw [hw2]; split
    · linarith
    · rename_i h; push_neg at h; linarith
  have hw3one : 1 ≤ w3 := hw3 ▸ le_max_left 1 w2
  have hw3L : w3 ≤ L := by rw [hw3]; exact max_le hL hw2L
  have hx2nonneg : 0 ≤ x2 := hx2 ▸ le_max_left 0 _
  have hx2le : x2 ≤ L - w3 := by
    rw [hx2]; exact max_le (by linarith) (min_le_right _ _)
  refine ⟨hw3one, hx2nonneg, by linarith, ?_⟩
  intro h0 hfit h1w
  have hs0nlt : ¬ s0 < 0 := not_lt.mpr h0
  have hw1w : w1 = w := by rw [hw1, if_neg hs0nlt]
  have hx1s : x1 = s0 := by rw [hx1, if_neg hs0nlt]
  have hsum : x1 + w1 ≤ L := by rw [hw1w, hx1s, hs0]; linarith
  have hw2w : w2 = w := by rw [hw2, if_neg (not_lt.mpr hsum), hw1w]
  have hw3w : w3 = w := by rw [hw3, hw2w, max_eq_right h1w]
  have hx2s : x2 = s0 := by
    have hle : s0 ≤ L - w := by rw [hs0]; linarith
    rw [hx2, hw3w, hx1s, min_eq_left hle, max_eq_right h0]
  exact ⟨hx2s, hw3w⟩

/-- Claim C5 (amended): the computed source rectangle is the ideal
`displaySize/viewScale` rectangle centered on `viewCenter` intersected
with the image bounds (so a dimension may shrink below
`displaySize/viewScale` near an edge), forced to a minimum size of 1
pixel, and pushed fully inside the image; it always lies entirely
within the image bounds, and when the ideal centered rectangle already
fits inside the image it is returned exactly. -/
theorem C5_source_rect_clamped (imgW imgH displayW displayH viewScale : ℚ)
    (c : Pt) (r : ViewportState)
    (hW : 1 ≤ imgW) (hH : 1 ≤ imgH) (hdw : 0 < displayW) (hdh : 0 < displayH)
    (hvs : 0 < viewScale)
    (hr : calculateViewport imgW imgH displayW displayH viewScale c = some r) :
    1 ≤ r.sWidth ∧ 1 ≤ r.sHeight ∧ 0 ≤ r.sx ∧ r.sx + r.sWidth ≤ imgW ∧
      0 ≤ r.sy ∧ r.sy + r.sHeight ≤ imgH ∧
      (0 ≤ c.x - displayW / viewScale / 2 →
        c.x + displayW / viewScale / 2 ≤ imgW →
        1 ≤ displayW / viewScale →
        0 ≤ c.y - displayH / viewScale / 2 →
        c.y + displayH / viewScale / 2 ≤ imgH →
        1 ≤ displayH / viewScale →
        r = ⟨c.x - displayW / viewScale / 2, c.y - displayH / viewScale / 2,
          displayW / viewScale, displayH / viewScale⟩) := by
  have hne : ¬ (displayW = 0 ∨ displayH = 0) := by
    push_neg; exact ⟨ne_of_gt hdw, ne_of_gt hdh⟩
  rw [calculateViewport, if_neg hne] at hr
  simp only [Option.some.injEq] at hr
  subst hr
  have hx := viewportClamp1D imgW c.x (displayW / viewScale) _ _ _ _ _ _
    hW (div_pos hdw hvs) rfl rfl rfl rfl rfl rfl
  have hy := viewportClamp1D imgH c.y (displayH / viewScale) _ _ _ _ _ _
    hH (div_pos hdh hvs) rfl rfl rfl rfl rfl rfl
  refine ⟨hx.1, hy.1, hx.2.1, by linarith [hx.2.2.1], hy.2.1,
    by linarith [hy.2.2.1], ?_⟩
  intro hx0 hxfit hx1 hy0 hyfit hy1
  obtain ⟨ex, ew⟩ := hx.2.2.2 hx0 hxfit hx1
  obtain ⟨ey, eh⟩ := hy.2.2.2 hy0 hyfit hy1
  simp only [ViewportState.mk.injEq]
  exact ⟨ex, ey, ew, eh⟩

/-- Claim C5, counterexample to the claim as stated: with a 100×100
image, a 10×10 display at `viewScale = 1` and `viewCenter = (98, 50)`,
the computed rectangle has `sWidth = 7`, not `displaySize/viewScale`
clamped to the image bounds (`min (10/1) 100 = 10`), and it is not
centered on the view center (`sx = 93 ≠ 98 - 7/2`). -/
theorem C5_counterexample :
    calculateViewport 100 100 10 10 1 ⟨98, 50⟩ =
      some ⟨93, 45, 7, 10⟩ ∧
    (7 : ℚ) ≠ min (10 / 1) 100 ∧ (93 : ℚ) ≠ 98 - 7 / 2 := by
  refine ⟨?_, by norm_num, by norm_num⟩
  norm_num [calculateViewport, min_def, max_def]

/-- Witness for `C5_source_rect_clamped` at a concrete fitting input. -/
theorem C5_source_rect_clamped_witness :
    1 ≤ (⟨45, 45, 10, 10⟩ : ViewportState).sWidth ∧
    1 ≤ (⟨45, 45, 10, 10⟩ : ViewportState).sHeight ∧
    0 ≤ (⟨45, 45, 10, 10⟩ : ViewportState).sx ∧
    (⟨45, 45, 10, 10⟩ : ViewportState).sx +
      (⟨45, 45, 10, 10⟩ : ViewportState).sWidth ≤ 100 ∧
    0 ≤ (⟨45, 45, 10, 10⟩ : ViewportState).sy ∧
    (⟨45, 45, 10, 10⟩ : ViewportState).sy +
      (⟨45, 45, 10, 10⟩ : ViewportState).sHeight ≤ 100 ∧
    (0 ≤ (50 : ℚ) - 10 / 1 / 2 → (50 : ℚ) + 10 / 1 / 2 ≤ 100 →
      1 ≤ (10 : ℚ) / 1 → 0 ≤ (50 : ℚ) - 10 / 1 / 2 →
      (50 : ℚ) + 10 / 1 / 2 ≤ 100 → 1 ≤ (10 : ℚ) / 1 →
      (⟨45, 45, 10, 10⟩ : ViewportState) =
        ⟨50 - 10 / 1 / 2, 50 - 10 / 1 / 2, 10 / 1, 10 / 1⟩) :=
  C5_source_rect_clamped 100 100 10 10 1 ⟨50, 50⟩ ⟨45, 45, 10, 10⟩
    (by norm_num) (by norm_num) (by norm_num) (by norm_num) (by norm_num)
    (by norm_num [calculateViewport, min_def, max_def])

/-- Claim C2: for every image point inside the cached source
rectangle, mapping to rendering-surface coordinates with
`imageToCanvasCoords` and mapping the corresponding display position
(surface coordinate rescaled by display/buffer size) back with
`canvasToImageCoords` returns the point exactly (rational arithmetic
models "within floating-point tolerance"). -/
theorem C2_round_trip (vp : ViewportState) (lb : LetterboxParams)
    (displayW displayH bufferW bufferH imgW imgH : ℚ) (P : Pt)
    (hdw : 0 < lb.dWidth) (hdh : 0 < lb.dHeight)
    (hsw : 0 < vp.sWidth) (hsh : 0 < vp.sHeight)
    (hDW : 0 < displayW) (hDH : 0 < displayH)
    (hbW : 0 < bufferW) (hbH : 0 < bufferH)
    (hx1 : vp.sx ≤ P.x) (hx2 : P.x ≤ vp.sx + vp.sWidth)
    (hy1 : vp.sy ≤ P.y) (hy2 : P.y ≤ vp.sy + vp.sHeight)
    (hbx : 0 ≤ vp.sx) (hbX : vp.sx + vp.sWidth ≤ imgW)
    (hby : 0 ≤ vp.sy) (hbY : vp.sy + vp.sHeight ≤ imgH) :
    ∃ C, imageToCanvasCoords vp lb P = some C ∧
      canvasToImageCoords vp lb displayW displayH bufferW bufferH imgW imgH
        ⟨C.x / bufferW * displayW, C.y / bufferH * displayH⟩ = some P := by
  have hguard : ¬ (lb.dWidth ≤ 0 ∨ lb.dHeight ≤ 0) := by
    push_neg; exact ⟨hdw, hdh⟩
  set rX := (P.x - vp.sx) / vp.sWidth with hrX
  set rY := (P.y - vp.sy) / vp.sHeight with hrY
  have hrX0 : 0 ≤ rX := div_nonneg (by linarith) hsw.le
  have hrX1 : rX ≤ 1 := (div_le_one hsw).mpr (by linarith)
  have hrY0 : 0 ≤ rY := div_nonneg (by linarith) hsh.le
  have hrY1 : rY ≤ 1 := (div_le_one hsh).mpr (by linarith)
  set cx := lb.dx + rX * lb.dWidth with hcx
  set cy := lb.dy + rY * lb.dHeight with hcy
  refine ⟨⟨cx, cy⟩, ?_, ?_⟩
  · rw [imageToCanvasCoords, if_neg hguard]
    simp only [if_pos hsw, if_pos hsh]
  · have hg1 : ¬ (displayW = 0 ∨ displayH = 0 ∨ lb.dWidth ≤ 0 ∨ lb.dHeight ≤ 0) := by
      push_neg; exact ⟨ne_of_gt hDW, ne_of_gt hDH, hdw, hdh⟩
    rw [canvasToImageCoords, if_neg hg1]
    have hptrx : (⟨cx / bufferW * displayW, cy / bufferH * displayH⟩ : Pt).x /
        displayW * bufferW = cx := by
      field_simp
      ring
    have hptry : (⟨cx / bufferW * displayW, cy / bufferH * displayH⟩ : Pt).y /
        displayH * bufferH = cy := by
      field_simp
      ring
    rw [hptrx, hptry]
    have hcx1 : lb.dx ≤ cx := by
      have : 0 ≤ rX * lb.dWidth := mul_nonneg hrX0 hdw.le
      rw [hcx]; linarith
    have hcx2 : cx ≤ lb.dx + lb.dWidth := by
      have : rX * lb.dWidth ≤ 1 * lb.dWidth :=
        mul_le_mul_of_nonneg_right hrX1 hdw.le
      rw [hcx]; linarith
    have hcy1 : lb.dy ≤ cy := by
      have : 0 ≤ rY * lb.dHeight := mul_nonneg hrY0 hdh.le
      rw [hcy]; linarith
    have hcy2 : cy ≤ lb.dy + lb.dHeight := by
      have : rY * lb.dHeight ≤ 1 * lb.dHeight :=
        mul_le_mul_of_nonneg_right hrY1 hdh.le
      rw [hcy]; linarith
    have hg2 : ¬ (cx < lb.dx ∨ cx > lb.dx + lb.dWidth ∨
        cy < lb.dy ∨ cy > lb.dy + lb.dHeight) := by
      push_neg; exact ⟨hcx1, hcx2, hcy1, hcy2⟩
    rw [if_neg hg2]
    simp only [if_pos hdw, if_pos hdh]
    have hrelx : (cx - lb.dx) / lb.dWidth = rX := by
      rw [hcx]; field_simp
    have hrely : (cy - lb.dy) / lb.dHeight = rY := by
      rw [hcy]; field_simp
    rw [hrelx, hrely, hrX, hrY]
    have hmx : vp.sx + (P.x - vp.sx) / vp.sWidth * vp.sWidth = P.x := by
      rw [div_mul_cancel₀ _ (ne_of_gt hsw)]; ring
    have hmy : vp.sy + (P.y - vp.sy) / vp.sHeight * vp.sHeight = P.y := by
      rw [div_mul_cancel₀ _ (ne_of_gt hsh)]; ring
    rw [hmx, hmy, min_eq_left (by linarith), min_eq_left (by linarith),
      max_eq_right (by linarith), max_eq_right (by linarith)]

/-- Witness for `C2_round_trip` at a concrete input. -/
theorem C2_round_trip_witness :
    ∃ C, imageToCanvasCoords ⟨0, 0, 100, 100⟩ ⟨0, 0, 200, 200⟩ ⟨50, 50⟩ =
        some C ∧
      canvasToImageCoords ⟨0, 0, 100, 100⟩ ⟨0, 0, 200, 200⟩ 100 100 200 200
        100 100 ⟨C.x / 200 * 100, C.y / 200 * 100⟩ = some ⟨50, 50⟩ :=
  C2_round_trip ⟨0, 0, 100, 100⟩ ⟨0, 0, 200, 200⟩ 100 100 200 200 100 100
    ⟨50, 50⟩ (by norm_num) (by norm_num) (by norm_num) (by norm_num)
    (by norm_num) (by norm_num) (by norm_num) (by norm_num) (by norm_num)
    (by norm_num) (by norm_num) (by norm_num) (by norm_num) (by norm_num)
    (by norm_num) (by norm_num)

/-- Claim C9: every point returned by `canvasToImageCoords` is clamped
to the image bounds, and a pointer whose rendering-buffer position
falls strictly outside the letterbox destination rectangle yields
`none`. -/
theorem C9_pointer_mapping_bounds (vp : ViewportState) (lb : LetterboxParams)
    (displayW displayH bufferW bufferH imgW imgH : ℚ) (q : Pt)
    (hW : 0 ≤ imgW) (hH : 0 ≤ imgH) :
    (∀ p, canvasToImageCoords vp lb displayW displayH bufferW bufferH
        imgW imgH q = some p →
      0 ≤ p.x ∧ p.x ≤ imgW ∧ 0 ≤ p.y ∧ p.y ≤ imgH) ∧
    ((q.x / displayW * bufferW < lb.dx ∨
        q.x / displayW * bufferW > lb.dx + lb.dWidth ∨
        q.y / displayH * bufferH < lb.dy ∨
        q.y / displayH * bufferH > lb.dy + lb.dHeight) →
      canvasToImageCoords vp lb displayW displayH bufferW bufferH
        imgW imgH q = none) := by
  constructor
  · intro p hp
    simp only [canvasToImageCoords] at hp
    split_ifs at hp
    all_goals
      simp only [Option.some.injEq] at hp
      subst hp
      exact ⟨le_max_left 0 _, max_le hW (min_le_right _ _),
        le_max_left 0 _, max_le hH (min_le_right _ _)⟩
  · intro h
    simp only [canvasToImageCoords]
    by_cases h1 : displayW = 0 ∨ displayH = 0 ∨ lb.dWidth ≤ 0 ∨ lb.dHeight ≤ 0
    · rw [if_pos h1]
    · rw [if_neg h1, if_pos h]

/-- Witness for `C9_pointer_mapping_bounds` at a concrete input. -/
theorem C9_pointer_mapping_bounds_witness :
    (∀ p, canvasToImageCoords ⟨0, 0, 100, 100⟩ ⟨10, 10, 180, 180⟩ 100 100 200
        200 100 100 ⟨1, 1⟩ = some p →
      0 ≤ p.x ∧ p.x ≤ 100 ∧ 0 ≤ p.y ∧ p.y ≤ 100) ∧
    (((1 : ℚ) / 100 * 200 < 10 ∨ (1 : ℚ) / 100 * 200 > 10 + 180 ∨
        (1 : ℚ) / 100 * 200 < 10 ∨ (1 : ℚ) / 100 * 200 > 10 + 180) →
      canvasToImageCoords ⟨0, 0, 100, 100⟩ ⟨10, 10, 180, 180⟩ 100 100 200 200
        100 100 ⟨1, 1⟩ = none) :=
  C9_pointer_mapping_bounds ⟨0, 0, 100, 100⟩ ⟨10, 10, 180, 180⟩ 100 100 200
    200 100 100 ⟨1, 1⟩ (by norm_num) (by norm_num)

/-! ## Data model: units, groups, statistics -/

/-- Translation of `type Mode` from `Group.svelte` (lines 53–59). -/
inductive Mode
  | loading | scaling | placingHoles | placingAim | selectingHole | panning
  deriving Repr, DecidableEq

/-- Translation of `type LinearUnit` from `Group.svelte` (line 60). -/
inductive LinearUnit
  | inches | cm | mm | meters | yards
  deriving Repr, DecidableEq

/-- Translation of `type DistanceUnit` from `Group.svelte` (line 61). -/
inductive DistanceUnit
  | yards | meters
  deriving Repr, DecidableEq

/-- The inclusion of `DistanceUnit` values into the `LinearUnit`
union used by `convertUnits` (the source uses string literals shared
between the two union types). -/
def DistanceUnit.toLinearUnit : DistanceUnit → LinearUnit
  | .yards => .yards
  | .meters => .meters

/-- Modelled from the spec: the `@moa/moa` unit-conversion collaborator
(`moa.in2m`) is an external library, not part of this repository's
sources; spec §6 specifies linear conversion via a common base unit
(1 inch = 0.0254 m). -/
def in2m (v : ℚ) : ℚ := v * (254 / 10000)

/-- Modelled from the spec: inverse of `in2m` (`moa.m2in`). -/
def m2in (v : ℚ) : ℚ := v / (254 / 10000)

/-- Modelled from the spec: `moa.cm2m`, 1 cm = 0.01 m. -/
def cm2m (v : ℚ) : ℚ := v / 100

/-- Modelled from the spec: `moa.m2cm`. -/
def m2cm (v : ℚ) : ℚ := v * 100

/-- Modelled from the spec: `moa.yd2m`, 1 yard = 0.9144 m. -/
def yd2m (v : ℚ) : ℚ := v * (9144 / 10000)

/-- Modelled from the spec: `moa.m2yd`. -/
def m2yd (v : ℚ) : ℚ := v / (9144 / 10000)

/-- Modelled from the spec: the fixed mrad→MOA ratio
`(180/π × 60)/1000` of `moa.mrad2moa`, represented by a positive
rational approximation (the claims depend only on its positivity and
linearity). -/
def moaPerMrad : ℚ := 34377467707849393 / 10 ^ 16

/-- Modelled from the spec: `moa.mrad2moa`, multiplication by the
fixed conversion ratio. -/
def mrad2moa (v : ℚ) : ℚ := v * moaPerMrad

/-- Translation of `metersToUnit` from `Group.svelte` (lines 286–304). -/
def metersToUnit (value : ℚ) (targetUnit : LinearUnit) : ℚ :=
  match targetUnit with
  | .inches => m2in value
  | .cm => m2cm value
  | .mm => m2cm value * 10
  | .meters => value
  | .yards => m2yd value

/-- Translation of `convertUnits` from `Group.svelte` (lines 306–333). -/
def convertUnits (value : ℚ) (fromU toU : LinearUnit) : ℚ :=
  if fromU = toU then value
  else
    let meters := match fromU with
      | .inches => in2m value
      | .cm => cm2m value
      | .mm => cm2m (value / 10)
      | .yards => yd2m value
      | .meters => value
    metersToUnit meters toU

/-- Abstraction of the irrational JS math primitives used by the core:
`sqrt` stands for `Math.sqrt`, and `angleDeg dx dy` for the bearing
computation `atan2(-dy, dx)` normalized to `[0, 2π)` and converted to
degrees (`Group.svelte` lines 1407–1411); neither has an exact
rational counterpart.  Theorems that depend on an actual square-root
value carry pointwise exactness hypotheses. -/
structure FloatOps where
  sqrt : ℚ → ℚ
  angleDeg : ℚ → ℚ → ℚ

/-- Translation of `interface ShotGroup` from `Group.svelte` (lines 34–52). -/
structure ShotGroup where
  id : ℕ
  name : String
  bulletHolesPixels : List Pt
  bulletHolesReal : List Pt
  centroidReal : Option Pt
  meanRadius : Option ℚ
  meanRadiusMOA : Option ℚ
  meanRadiusMRAD : Option ℚ
  maxSpread : Option ℚ
  maxSpreadMOA : Option ℚ
  maxSpreadMRAD : Option ℚ
  aimingPointPixels : Option Pt
  aimingPointReal : Option Pt
  offsetFromAim : Option (ℚ × ℚ)
  resultsValid : Bool
  infoBoxAnchorImage : Option Pt
  infoBoxSize : Option (ℚ × ℚ)
  deriving Repr, DecidableEq

/-- The form-input settings read by the statistics engine
(`referenceUnit`, `referenceLength`, `targetDistance`,
`targetDistanceUnit` state variables of `Group.svelte`). -/
structure Settings where
  referenceUnit : LinearUnit
  referenceLength : ℚ
  targetDistance : ℚ
  targetDistanceUnit : DistanceUnit
  deriving Repr, DecidableEq

/-- Squared Euclidean distance as computed throughout the source
(`dx * dx + dy * dy`). -/
def distSq (a b : Pt) : ℚ :=
  (a.x - b.x) * (a.x - b.x) + (a.y - b.y) * (a.y - b.y)

/-- The pairwise squared distances scanned by the `maxSpread` double
loop of `calculateGroupResults` (`Group.svelte` lines 1359–1366,
pairs `i < j`). -/
def pairDistSqs : List Pt → List ℚ
  | [] => []
  | p :: rest => rest.map (fun q => distSq p q) ++ pairDistSqs rest

/-- The `maxDistSq` accumulator of that loop: starts at 0 and takes
`Math.max` over all pairs. -/
def maxPairDistSq (pts : List Pt) : ℚ := (pairDistSqs pts).foldl max 0

/-- The centroid computation of `calculateGroupResults`
(`Group.svelte` lines 1339–1349): arithmetic mean of the real
coordinates. -/
def centroidOf (pts : List Pt) : Pt :=
  ⟨(pts.map Pt.x).sum / (pts.length : ℚ), (pts.map Pt.y).sum / (pts.length : ℚ)⟩

/-- The mean-radius computation of `calculateGroupResults`
(`Group.svelte` lines 1350–1357): mean distance of the holes from the
centroid, the square roots taken by `Math.sqrt`. -/
def meanRadiusOf (ops : FloatOps) (pts : List Pt) : ℚ :=
  (pts.map (fun h => ops.sqrt (distSq h (centroidOf pts)))).sum / (pts.length : ℚ)

/-- The milliradian conversion of the angular block
(`Group.svelte` lines 1384–1385 and 1395–1396):
`angleRad = measureMeters / distMeters` (small-angle approximation),
`mrad = angleRad × 1000`. -/
def mradOf (measureMeters distMeters : ℚ) : ℚ := measureMeters / distMeters * 1000

/-- The per-group core of `calculateGroupResults` from `Group.svelte`
(lines 1321–1415): reset all derived fields, then recompute centroid,
mean radius, max spread, angular equivalents and offset from aim.  The
state-level guard (`idx` in range, `scale` set) and the trailing
reactivity/redraw are in the state-level wrapper. -/
def calcResults (ops : FloatOps) (cfg : Settings) (g : ShotGroup) : ShotGroup :=
  let g0 := { g with
    centroidReal := none
    meanRadius := none
    maxSpread := none
    meanRadiusMOA := none
    meanRadiusMRAD := none
    maxSpreadMOA := none
    maxSpreadMRAD := none
    offsetFromAim := none
    resultsValid := false }
  if g0.bulletHolesReal.length = 0 then g0
  else
    let maxSpread? :=
      if 2 ≤ g0.bulletHolesReal.length then
        some (ops.sqrt (maxPairDistSq g0.bulletHolesReal))
      else none
    let g1 := { g0 with
      centroidReal := some (centroidOf g0.bulletHolesReal)
      meanRadius := some (meanRadiusOf ops g0.bulletHolesReal)
      maxSpread := maxSpread? }
    let g2 :=
      if 0 < cfg.targetDistance then
        let distMeters := convertUnits cfg.targetDistance
          cfg.targetDistanceUnit.toLinearUnit .meters
        if 0 < distMeters then
          let g2a := match g1.meanRadius with
            | some mr =>
              { g1 with
                meanRadiusMRAD :=
                  some (mradOf (convertUnits mr cfg.referenceUnit .meters) distMeters)
                meanRadiusMOA :=
                  some (mrad2moa
                    (mradOf (convertUnits mr cfg.referenceUnit .meters) distMeters)) }
            | none => g1
          match g2a.maxSpread with
          | some ms =>
            { g2a with
              maxSpreadMRAD :=
                some (mradOf (convertUnits ms cfg.referenceUnit .meters) distMeters)
              maxSpreadMOA :=
                some (mrad2moa
                  (mradOf (convertUnits ms cfg.referenceUnit .meters) distMeters)) }
          | none => g2a
        else g1
      else g1
    let g3 := match g2.aimingPointReal, g2.centroidReal with
      | some aim, some c =>
        let dx := c.x - aim.x
        let dy := c.y - aim.y
        { g2 with offsetFromAim := some (ops.sqrt (dx * dx + dy * dy), ops.angleDeg dx dy) }
      | _, _ => { g2 with offsetFromAim := none }
    { g3 with resultsValid := true }

lemma distSq_nonneg (a b : Pt) : 0 ≤ distSq a b :=
  add_nonneg (mul_self_nonneg _) (mul_self_nonneg _)

lemma le_foldl_max (l : List ℚ) (a : ℚ) : a ≤ l.foldl max a := by
  induction l generalizing a with
  | nil => exact le_refl a
  | cons x xs ih => exact le_trans (le_max_left a x) (ih (max a x))

lemma mem_le_foldl_max (l : List ℚ) (a : ℚ) : ∀ d ∈ l, d ≤ l.foldl max a := by
  induction l generalizing a with
  | nil => intro d hd; simp at hd
  | cons x xs ih =>
    intro d hd
    rcases List.mem_cons.mp hd with rfl | hd'
    · exact le_trans (le_max_right a d) (le_foldl_max xs _)
    · exact ih (max a x) d hd'

lemma foldl_max_eq_or_mem (l : List ℚ) (a : ℚ) :
    l.foldl max a = a ∨ l.foldl max a ∈ l := by
  induction l generalizing a with
  | nil => left; rfl
  | cons x xs ih =>
    rcases ih (max a x) with h | h
    · rcases max_choice a x with hax | hax
      · left; rw [List.foldl_cons, h, hax]
      · right; rw [List.foldl_cons, h, hax]; exact List.mem_cons_self x xs
    · right; exact List.mem_cons_of_mem x h

/-- Every element of `pairDistSqs pts` is the squared distance of an
ordered pair of points of `pts`. -/
lemma mem_pairDistSqs (pts : List Pt) (d : ℚ) (hd : d ∈ pairDistSqs pts) :
    ∃ i j, i < j ∧ j < pts.length ∧
      d = distSq (pts.getD i ⟨0, 0⟩) (pts.getD j ⟨0, 0⟩) := by
  induction pts with
  | nil => simp [pairDistSqs] at hd
  | cons p rest ih =>
    rw [pairDistSqs] at hd
    rcases List.mem_append.mp hd with h | h
    · obtain ⟨q, hq, rfl⟩ := List.mem_map.mp h
      obtain ⟨⟨k, hk⟩, rfl⟩ := List.mem_iff_get.mp hq
      refine ⟨0, k + 1, Nat.succ_pos k, by simpa using hk, ?_⟩
      rw [List.getD_cons_zero, List.getD_cons_succ,
        List.getD_eq_getElem _ _ hk, List.get_eq_getElem]
    · obtain ⟨i, j, hij, hj, hdist⟩ := ih h
      exact ⟨i + 1, j + 1, by omega, by simpa using hj,
        by rwa [List.getD_cons_succ, List.getD_cons_succ]⟩

/-- Conversely, the squared distance of every ordered pair occurs in
`pairDistSqs pts`. -/
lemma pairDistSqs_mem (pts : List Pt) (i j : ℕ) (hij : i < j)
    (hj : j < pts.length) :
    distSq (pts.getD i ⟨0, 0⟩) (pts.getD j ⟨0, 0⟩) ∈ pairDistSqs pts := by
  induction pts generalizing i j with
  | nil => simp at hj
  | cons p rest ih =>
    match i, j with
    | 0, j + 1 =>
      rw [pairDistSqs, List.getD_cons_zero, List.getD_cons_succ]
      refine List.mem_append_left _ (List.mem_map.mpr ⟨rest.getD j ⟨0, 0⟩, ?_, rfl⟩)
      have hj' : j < rest.length := by simpa using hj
      rw [List.getD_eq_getElem _ _ hj']
      exact List.getElem_mem _
    | i + 1, j + 1 =>
      rw [pairDistSqs, List.getD_cons_succ, List.getD_cons_succ]
      exact List.mem_append_right _ (ih i j (by omega) (by simpa using hj))

lemma pairDistSqs_ne_nil (pts : List Pt) (h : 2 ≤ pts.length) :
    pairDistSqs pts ≠ [] := by
  match pts with
  | p :: q :: rest => simp [pairDistSqs]

lemma pairDistSqs_nonneg (pts : List Pt) (d : ℚ) (hd : d ∈ pairDistSqs pts) :
    0 ≤ d := by
  obtain ⟨i, j, _, _, rfl⟩ := mem_pairDistSqs pts d hd
  exact distSq_nonneg _ _

lemma maxPairDistSq_nonneg (pts : List Pt) : 0 ≤ maxPairDistSq pts :=
  le_foldl_max _ 0

lemma le_maxPairDistSq (pts : List Pt) (d : ℚ) (hd : d ∈ pairDistSqs pts) :
    d ≤ maxPairDistSq pts :=
  mem_le_foldl_max _ 0 d hd

/-- With at least two points, the maximum of the double loop is
attained by some pair. -/
lemma maxPairDistSq_mem (pts : List Pt) (h2 : 2 ≤ pts.length) :
    maxPairDistSq pts ∈ pairDistSqs pts := by
  rcases foldl_max_eq_or_mem (pairDistSqs pts) 0 with h | h
  · obtain ⟨d0, hd0⟩ := List.exists_mem_of_ne_nil _ (pairDistSqs_ne_nil pts h2)
    have h1 : d0 ≤ maxPairDistSq pts := le_maxPairDistSq pts d0 hd0
    have h0 : 0 ≤ d0 := pairDistSqs_nonneg pts d0 hd0
    have hM : maxPairDistSq pts = 0 := h
    have : d0 = maxPairDistSq pts := by rw [hM] at h1 ⊢; linarith
    exact this ▸ hd0
  · exact h

/-- The function `calcResults` never changes the stored coordinates of the group. -/
lemma calcResults_coords (ops : FloatOps) (cfg : Settings) (g : ShotGroup) :
    (calcResults ops cfg g).bulletHolesPixels = g.bulletHolesPixels ∧
    (calcResults ops cfg g).bulletHolesReal = g.bulletHolesReal ∧
    (calcResults ops cfg g).aimingPointPixels = g.aimingPointPixels ∧
    (calcResults ops cfg g).aimingPointReal = g.aimingPointReal := by
  obtain ⟨idv, nm, php, phr, cr, mr, mrO, mrR, ms, msO, msR, app, apr, off,
    rv, iba, ibs⟩ := g
  cases apr <;> simp only [calcResults] <;> split_ifs <;> simp

/-- With no holes, `calcResults` only clears the derived fields. -/
lemma calcResults_empty (ops : FloatOps) (cfg : Settings) (g : ShotGroup)
    (h : g.bulletHolesReal.length = 0) :
    calcResults ops cfg g = { g with
      centroidReal := none
      meanRadius := none
      maxSpread := none
      meanRadiusMOA := none
      meanRadiusMRAD := none
      maxSpreadMOA := none
      maxSpreadMRAD := none
      offsetFromAim := none
      resultsValid := false } := by
  simp [calcResults, h]

/-- With at least one hole, `calcResults` validates the results. -/
lemma calcResults_valid (ops : FloatOps) (cfg : Settings) (g : ShotGroup)
    (h : g.bulletHolesReal.length ≠ 0) :
    (calcResults ops cfg g).resultsValid = true := by
  obtain ⟨idv, nm, php, phr, cr, mr, mrO, mrR, ms, msO, msR, app, apr, off,
    rv, iba, ibs⟩ := g
  simp only [ShotGroup.bulletHolesReal] at h
  cases apr <;> simp only [calcResults] <;> split_ifs <;> simp_all

/-- With at least one hole, the stored mean radius is the mean
distance from the centroid. -/
lemma calcResults_meanRadius (ops : FloatOps) (cfg : Settings) (g : ShotGroup)
    (h : g.bulletHolesReal.length ≠ 0) :
    (calcResults ops cfg g).meanRadius =
      some (meanRadiusOf ops g.bulletHolesReal) := by
  obtain ⟨idv, nm, php, phr, cr, mr, mrO, mrR, ms, msO, msR, app, apr, off,
    rv, iba, ibs⟩ := g
  simp only [ShotGroup.bulletHolesReal] at h
  cases apr <;> simp only [calcResults] <;> split_ifs <;> simp_all

/-- With two or more holes, the stored max spread is `Math.sqrt` of
the maximal pairwise squared distance. -/
lemma calcResults_maxSpread_two (ops : FloatOps) (cfg : Settings)
    (g : ShotGroup) (h2 : 2 ≤ g.bulletHolesReal.length) :
    (calcResults ops cfg g).maxSpread =
      some (ops.sqrt (maxPairDistSq g.bulletHolesReal)) := by
  obtain ⟨idv, nm, php, phr, cr, mr, mrO, mrR, ms, msO, msR, app, apr, off,
    rv, iba, ibs⟩ := g
  simp only [ShotGroup.bulletHolesReal] at h2
  have h0 : ¬ phr.length = 0 := by omega
  cases apr <;> simp only [calcResults] <;> split_ifs <;> simp_all

/-- With fewer than two holes, the stored max spread is absent. -/
lemma calcResults_maxSpread_lt_two (ops : FloatOps) (cfg : Settings)
    (g : ShotGroup) (h2 : g.bulletHolesReal.length < 2) :
    (calcResults ops cfg g).maxSpread = none := by
  obtain ⟨idv, nm, php, phr, cr, mr, mrO, mrR, ms, msO, msR, app, apr, off,
    rv, iba, ibs⟩ := g
  simp only [ShotGroup.bulletHolesReal] at h2
  have h2' : ¬ 2 ≤ phr.length := by omega
  cases apr <;> simp only [calcResults] <;> split_ifs <;> simp_all

/-- With non-positive target distance, all angular fields are absent
after recomputation. -/
lemma calcResults_angular_none (ops : FloatOps) (cfg : Settings)
    (g : ShotGroup) (hz : cfg.targetDistance ≤ 0) :
    (calcResults ops cfg g).meanRadiusMRAD = none ∧
    (calcResults ops cfg g).meanRadiusMOA = none ∧
    (calcResults ops cfg g).maxSpreadMRAD = none ∧
    (calcResults ops cfg g).maxSpreadMOA = none := by
  obtain ⟨idv, nm, php, phr, cr, mr, mrO, mrR, ms, msO, msR, app, apr, off,
    rv, iba, ibs⟩ := g
  have hz' : ¬ 0 < cfg.targetDistance := not_lt.mpr hz
  cases apr <;> simp only [calcResults] <;> split_ifs <;> simp_all

/-- With a positive target distance (and positive metric distance),
the angular fields hold the small-angle values derived from the
measurements. -/
lemma calcResults_angular (ops : FloatOps) (cfg : Settings) (g : ShotGroup)
    (h : g.bulletHolesReal.length ≠ 0) (ht : 0 < cfg.targetDistance)
    (hd : 0 < convertUnits cfg.targetDistance
      cfg.targetDistanceUnit.toLinearUnit .meters) :
    (calcResults ops cfg g).meanRadiusMRAD =
      some (mradOf
        (convertUnits (meanRadiusOf ops g.bulletHolesReal) cfg.referenceUnit .meters)
        (convertUnits cfg.targetDistance cfg.targetDistanceUnit.toLinearUnit .meters)) ∧
    (calcResults ops cfg g).meanRadiusMOA =
      some (mrad2moa (mradOf
        (convertUnits (meanRadiusOf ops g.bulletHolesReal) cfg.referenceUnit .meters)
        (convertUnits cfg.targetDistance cfg.targetDistanceUnit.toLinearUnit .meters))) ∧
    (2 ≤ g.bulletHolesReal.length →
      (calcResults ops cfg g).maxSpreadMRAD =
        some (mradOf
          (convertUnits (ops.sqrt (maxPairDistSq g.bulletHolesReal))
            cfg.referenceUnit .meters)
          (convertUnits cfg.targetDistance cfg.targetDistanceUnit.toLinearUnit .meters)) ∧
      (calcResults ops cfg g).maxSpreadMOA =
        some (mrad2moa (mradOf
          (convertUnits (ops.sqrt (maxPairDistSq g.bulletHolesReal))
            cfg.referenceUnit .meters)
          (convertUnits cfg.targetDistance cfg.targetDistanceUnit.toLinearUnit .meters)))) := by
  obtain ⟨idv, nm, php, phr, cr, mr, mrO, mrR, ms, msO, msR, app, apr, off,
    rv, iba, ibs⟩ := g
  simp only [ShotGroup.bulletHolesReal] at h ⊢
  cases apr <;> simp only [calcResults] <;> split_ifs <;> simp_all

/-- Claim C3: recomputing results with zero holes clears all derived
results and sets `resultsValid = false`; with exactly one hole
`meanRadius` is defined and equals 0 while `maxSpread` is absent
(`none`); with two or more holes `maxSpread` equals the maximum
pairwise Euclidean distance among the holes' real coordinates
(characterized exactly: it is nonnegative, its square bounds every
pairwise squared distance, and its square is attained by some pair —
squaring is strictly monotone on nonnegatives, so this is the maximum
distance).  The hypotheses on `ops.sqrt` pin `Math.sqrt` down at the
radicands actually used. -/
theorem C3_statistics_absence (ops : FloatOps) (cfg : Settings) (g : ShotGroup) :
    (g.bulletHolesReal = [] →
      (calcResults ops cfg g).centroidReal = none ∧
      (calcResults ops cfg g).meanRadius = none ∧
      (calcResults ops cfg g).meanRadiusMOA = none ∧
      (calcResults ops cfg g).meanRadiusMRAD = none ∧
      (calcResults ops cfg g).maxSpread = none ∧
      (calcResults ops cfg g).maxSpreadMOA = none ∧
      (calcResults ops cfg g).maxSpreadMRAD = none ∧
      (calcResults ops cfg g).offsetFromAim = none ∧
      (calcResults ops cfg g).resultsValid = false) ∧
    (∀ p, g.bulletHolesReal = [p] → ops.sqrt 0 = 0 →
      (calcResults ops cfg g).meanRadius = some 0 ∧
      (calcResults ops cfg g).maxSpread = none) ∧
    (2 ≤ g.bulletHolesReal.length →
      0 ≤ ops.sqrt (maxPairDistSq g.bulletHolesReal) →
      ops.sqrt (maxPairDistSq g.bulletHolesReal) ^ 2 =
        maxPairDistSq g.bulletHolesReal →
      ∃ m, (calcResults ops cfg g).maxSpread = some m ∧ 0 ≤ m ∧
        (∀ i j, i < j → j < g.bulletHolesReal.length →
          distSq (g.bulletHolesReal.getD i ⟨0, 0⟩)
            (g.bulletHolesReal.getD j ⟨0, 0⟩) ≤ m ^ 2) ∧
        (∃ i j, i < j ∧ j < g.bulletHolesReal.length ∧
          distSq (g.bulletHolesReal.getD i ⟨0, 0⟩)
            (g.bulletHolesReal.getD j ⟨0, 0⟩) = m ^ 2)) := by
  refine ⟨?_, ?_, ?_⟩
  · intro h
    rw [calcResults_empty ops cfg g (by simp [h])]
    simp
  · intro p hp hs0
    constructor
    · rw [calcResults_meanRadius ops cfg g (by rw [hp]; simp)]
      rw [hp]
      simp [meanRadiusOf, centroidOf, distSq, hs0]
    · exact calcResults_maxSpread_lt_two ops cfg g (by rw [hp]; simp)
  · intro h2 hpos hsq
    refine ⟨ops.sqrt (maxPairDistSq g.bulletHolesReal),
      calcResults_maxSpread_two ops cfg g h2, hpos, ?_, ?_⟩
    · intro i j hij hj
      rw [hsq]
      exact le_maxPairDistSq _ _ (pairDistSqs_mem _ i j hij hj)
    · have hm := maxPairDistSq_mem g.bulletHolesReal h2
      obtain ⟨i, j, hij, hj, hd⟩ := mem_pairDistSqs _ _ hm
      exact ⟨i, j, hij, hj, by rw [← hd, hsq]⟩

/-- A concrete `FloatOps` fixture for witnesses: exact square roots on
the radicands 0, 9, 25 and 100 that the witness inputs produce. -/
def opsPyth : FloatOps :=
  ⟨fun q => if q = 9 then 3 else if q = 25 then 5 else
    if q = 100 then 10 else 0, fun _ _ => 0⟩

/-- A concrete `Settings` fixture for witnesses. -/
def cfgW : Settings := ⟨.inches, 1, 100, .yards⟩

/-- A concrete group fixture holding the given real coordinates. -/
def testGroup (phr : List Pt) : ShotGroup :=
  ⟨0, "Group 1", [], phr, none, none, none, none, none, none, none,
    none, none, none, false, none, none⟩

/-- Witness for `C3_statistics_absence`, exercising all three parts at
concrete groups with 0, 1 and 2 holes. -/
theorem C3_statistics_absence_witness :
    (calcResults opsPyth cfgW (testGroup [])).resultsValid = false ∧
    (calcResults opsPyth cfgW (testGroup [⟨1, 2⟩])).meanRadius = some 0 ∧
    (calcResults opsPyth cfgW (testGroup [⟨1, 2⟩])).maxSpread = none ∧
    ∃ m, (calcResults opsPyth cfgW (testGroup [⟨0, 0⟩, ⟨3, 4⟩])).maxSpread =
        some m ∧ 0 ≤ m ∧
      (∀ i j, i < j → j < (testGroup [⟨0, 0⟩, ⟨3, 4⟩]).bulletHolesReal.length →
        distSq ((testGroup [⟨0, 0⟩, ⟨3, 4⟩]).bulletHolesReal.getD i ⟨0, 0⟩)
          ((testGroup [⟨0, 0⟩, ⟨3, 4⟩]).bulletHolesReal.getD j ⟨0, 0⟩) ≤ m ^ 2) ∧
      (∃ i j, i < j ∧ j < (testGroup [⟨0, 0⟩, ⟨3, 4⟩]).bulletHolesReal.length ∧
        distSq ((testGroup [⟨0, 0⟩, ⟨3, 4⟩]).bulletHolesReal.getD i ⟨0, 0⟩)
          ((testGroup [⟨0, 0⟩, ⟨3, 4⟩]).bulletHolesReal.getD j ⟨0, 0⟩) = m ^ 2) :=
  ⟨((C3_statistics_absence opsPyth cfgW (testGroup [])).1 rfl).2.2.2.2.2.2.2.2,
   ((C3_statistics_absence opsPyth cfgW (testGroup [⟨1, 2⟩])).2.1 ⟨1, 2⟩ rfl
      (by norm_num [opsPyth])).1,
   ((C3_statistics_absence opsPyth cfgW (testGroup [⟨1, 2⟩])).2.1 ⟨1, 2⟩ rfl
      (by norm_num [opsPyth])).2,
   (C3_statistics_absence opsPyth cfgW (testGroup [⟨0, 0⟩, ⟨3, 4⟩])).2.2
      (by norm_num [testGroup])
      (by norm_num [testGroup, opsPyth, maxPairDistSq, pairDistSqs, distSq, max_def])
      (by norm_num [testGroup, opsPyth, maxPairDistSq, pairDistSqs, distSq, max_def])⟩

/-- Converting a positive distance-unit value to meters gives a
positive value. -/
lemma distConv_pos (d : ℚ) (u : DistanceUnit) (hd : 0 < d) :
    0 < convertUnits d u.toLinearUnit .meters := by
  cases u <;>
    simp [convertUnits, DistanceUnit.toLinearUnit, yd2m, metersToUnit] <;>
    positivity

/-- Converting to meters is strictly monotone for distance units. -/
lemma distConv_strictMono (d1 d2 : ℚ) (u : DistanceUnit) (h : d1 < d2) :
    convertUnits d1 u.toLinearUnit .meters <
      convertUnits d2 u.toLinearUnit .meters := by
  cases u <;>
    simp [convertUnits, DistanceUnit.toLinearUnit, yd2m, metersToUnit]
  · nlinarith
  · exact h

/-- Converting a positive linear value to meters gives a positive
value. -/
lemma refConv_pos (v : ℚ) (u : LinearUnit) (hv : 0 < v) :
    0 < convertUnits v u .meters := by
  cases u <;>
    simp [convertUnits, metersToUnit, in2m, cm2m, yd2m] <;>
    positivity

lemma moaPerMrad_pos : 0 < moaPerMrad := by norm_num [moaPerMrad]

/-- For a fixed positive measurement, the milliradian value strictly
decreases as the metric distance strictly increases. -/
lemma mradOf_strictAnti (Lm dm1 dm2 : ℚ) (hL : 0 < Lm) (h1 : 0 < dm1)
    (h12 : dm1 < dm2) : mradOf Lm dm2 < mradOf Lm dm1 := by
  unfold mradOf
  gcongr

/-- Claim C7 (amended): angular results are computed only when
`targetDistance > 0`, as `mrad = (measurement in meters / distance in
meters) × 1000`, with MOA derived from mrad by the fixed conversion
ratio; for a fixed *strictly positive* linear measurement, strictly
increasing `targetDistance` strictly decreases both the mrad and MOA
values (a zero measurement, e.g. a single hole's mean radius, yields
zero at every distance, so the decrease cannot be strict there); for
`targetDistance ≤ 0` both angular fields are absent (`none`) after
recomputation. -/
theorem C7_angular_results (ops : FloatOps) (cfg : Settings) (g : ShotGroup)
    (d1 d2 : ℚ) :
    (cfg.targetDistance ≤ 0 →
      (calcResults ops cfg g).meanRadiusMRAD = none ∧
      (calcResults ops cfg g).meanRadiusMOA = none ∧
      (calcResults ops cfg g).maxSpreadMRAD = none ∧
      (calcResults ops cfg g).maxSpreadMOA = none) ∧
    (0 < cfg.targetDistance → g.bulletHolesReal.length ≠ 0 →
      (calcResults ops cfg g).meanRadiusMRAD =
        some (mradOf
          (convertUnits (meanRadiusOf ops g.bulletHolesReal) cfg.referenceUnit .meters)
          (convertUnits cfg.targetDistance cfg.targetDistanceUnit.toLinearUnit .meters)) ∧
      (calcResults ops cfg g).meanRadiusMOA =
        some (mrad2moa (mradOf
          (convertUnits (meanRadiusOf ops g.bulletHolesReal) cfg.referenceUnit .meters)
          (convertUnits cfg.targetDistance cfg.targetDistanceUnit.toLinearUnit .meters)))) ∧
    (0 < d1 → d1 < d2 → g.bulletHolesReal.length ≠ 0 →
      0 < meanRadiusOf ops g.bulletHolesReal →
      ∃ m1 m2,
        (calcResults ops { cfg with targetDistance := d1 } g).meanRadiusMRAD =
          some m1 ∧
        (calcResults ops { cfg with targetDistance := d2 } g).meanRadiusMRAD =
          some m2 ∧
        (calcResults ops { cfg with targetDistance := d1 } g).meanRadiusMOA =
          some (mrad2moa m1) ∧
        (calcResults ops { cfg with targetDistance := d2 } g).meanRadiusMOA =
          some (mrad2moa m2) ∧
        m2 < m1 ∧ mrad2moa m2 < mrad2moa m1) ∧
    (0 < d1 → d1 < d2 → 2 ≤ g.bulletHolesReal.length →
      0 < ops.sqrt (maxPairDistSq g.bulletHolesReal) →
      ∃ s1 s2,
        (calcResults ops { cfg with targetDistance := d1 } g).maxSpreadMRAD =
          some s1 ∧
        (calcResults ops { cfg with targetDistance := d2 } g).maxSpreadMRAD =
          some s2 ∧
        (calcResults ops { cfg with targetDistance := d1 } g).maxSpreadMOA =
          some (mrad2moa s1) ∧
        (calcResults ops { cfg with targetDistance := d2 } g).maxSpreadMOA =
          some (mrad2moa s2) ∧
        s2 < s1 ∧ mrad2moa s2 < mrad2moa s1) := by
  refine ⟨fun hz => calcResults_angular_none ops cfg g hz, ?_, ?_, ?_⟩
  · intro ht h
    have ha := calcResults_angular ops cfg g h ht
      (distConv_pos _ _ ht)
    exact ⟨ha.1, ha.2.1⟩
  · intro h1 h12 h hL
    have ht1 : 0 < ({ cfg with targetDistance := d1 } : Settings).targetDistance := h1
    have ht2 : 0 < ({ cfg with targetDistance := d2 } : Settings).targetDistance := by
      show 0 < d2; linarith
    have ha1 := calcResults_angular ops { cfg with targetDistance := d1 } g h ht1
      (distConv_pos _ _ ht1)
    have ha2 := calcResults_angular ops { cfg with targetDistance := d2 } g h ht2
      (distConv_pos _ _ ht2)
    have hLm : 0 < convertUnits (meanRadiusOf ops g.bulletHolesReal)
        cfg.referenceUnit .meters := refConv_pos _ _ hL
    have hmono : mradOf
        (convertUnits (meanRadiusOf ops g.bulletHolesReal) cfg.referenceUnit .meters)
        (convertUnits d2 cfg.targetDistanceUnit.toLinearUnit .meters) <
      mradOf
        (convertUnits (meanRadiusOf ops g.bulletHolesReal) cfg.referenceUnit .meters)
        (convertUnits d1 cfg.targetDistanceUnit.toLinearUnit .meters) :=
      mradOf_strictAnti _ _ _ hLm (distConv_pos _ _ h1)
        (distConv_strictMono _ _ _ h12)
    exact ⟨_, _, ha1.1, ha2.1, ha1.2.1, ha2.2.1, hmono,
      mul_lt_mul_of_pos_right hmono moaPerMrad_pos⟩
  · intro h1 h12 h2 hS
    have h : g.bulletHolesReal.length ≠ 0 := by omega
    have ht1 : 0 < ({ cfg with targetDistance := d1 } : Settings).targetDistance := h1
    have ht2 : 0 < ({ cfg with targetDistance := d2 } : Settings).targetDistance := by
      show 0 < d2; linarith
    have ha1 := (calcResults_angular ops { cfg with targetDistance := d1 } g h ht1
      (distConv_pos _ _ ht1)).2.2 h2
    have ha2 := (calcResults_angular ops { cfg with targetDistance := d2 } g h ht2
      (distConv_pos _ _ ht2)).2.2 h2
    have hSm : 0 < convertUnits (ops.sqrt (maxPairDistSq g.bulletHolesReal))
        cfg.referenceUnit .meters := refConv_pos _ _ hS
    have hmono : mradOf
        (convertUnits (ops.sqrt (maxPairDistSq g.bulletHolesReal)) cfg.referenceUnit .meters)
        (convertUnits d2 cfg.targetDistanceUnit.toLinearUnit .meters) <
      mradOf
        (convertUnits (ops.sqrt (maxPairDistSq g.bulletHolesReal)) cfg.referenceUnit .meters)
        (convertUnits d1 cfg.targetDistanceUnit.toLinearUnit .meters) :=
      mradOf_strictAnti _ _ _ hSm (distConv_pos _ _ h1)
        (distConv_strictMono _ _ _ h12)
    exact ⟨_, _, ha1.1, ha2.1, ha1.2, ha2.2, hmono,
      mul_lt_mul_of_pos_right hmono moaPerMrad_pos⟩

/-- Claim C7, counterexample to the claim as stated: a group with a
single hole has `meanRadius = 0`; doubling the target distance from
100 to 200 yards leaves the derived mrad value at 0 — the decrease is
not strict for a zero measurement. -/
theorem C7_counterexample :
    (100 : ℚ) < 200 ∧
    (calcResults opsPyth ⟨.inches, 1, 100, .yards⟩ (testGroup [⟨1, 2⟩])).meanRadiusMRAD =
      some 0 ∧
    (calcResults opsPyth ⟨.inches, 1, 200, .yards⟩ (testGroup [⟨1, 2⟩])).meanRadiusMRAD =
      some 0 := by
  refine ⟨by norm_num, ?_, ?_⟩ <;>
  · rw [(calcResults_angular opsPyth _ (testGroup [⟨1, 2⟩])
      (by norm_num [testGroup]) (by norm_num)
      (distConv_pos _ _ (by norm_num))).1]
    norm_num [meanRadiusOf, centroidOf, distSq, testGroup, opsPyth, mradOf,
      convertUnits, metersToUnit, in2m]

/-- Witness for `C7_angular_results`: a two-hole group with mean
radius 5 and max spread 10, distances 100 < 200 yards. -/
theorem C7_angular_results_witness :
    ((calcResults opsPyth ⟨.inches, 1, 0, .yards⟩
        (testGroup [⟨0, 0⟩, ⟨6, 8⟩])).meanRadiusMRAD = none) ∧
    (∃ m1 m2,
      (calcResults opsPyth { cfgW with targetDistance := 100 }
        (testGroup [⟨0, 0⟩, ⟨6, 8⟩])).meanRadiusMRAD = some m1 ∧
      (calcResults opsPyth { cfgW with targetDistance := 200 }
        (testGroup [⟨0, 0⟩, ⟨6, 8⟩])).meanRadiusMRAD = some m2 ∧
      (calcResults opsPyth { cfgW with targetDistance := 100 }
        (testGroup [⟨0, 0⟩, ⟨6, 8⟩])).meanRadiusMOA = some (mrad2moa m1) ∧
      (calcResults opsPyth { cfgW with targetDistance := 200 }
        (testGroup [⟨0, 0⟩, ⟨6, 8⟩])).meanRadiusMOA = some (mrad2moa m2) ∧
      m2 < m1 ∧ mrad2moa m2 < mrad2moa m1) ∧
    (∃ s1 s2,
      (calcResults opsPyth { cfgW with targetDistance := 100 }
        (testGroup [⟨0, 0⟩, ⟨6, 8⟩])).maxSpreadMRAD = some s1 ∧
      (calcResults opsPyth { cfgW with targetDistance := 200 }
        (testGroup [⟨0, 0⟩, ⟨6, 8⟩])).maxSpreadMRAD = some s2 ∧
      (calcResults opsPyth { cfgW with targetDistance := 100 }
        (testGroup [⟨0, 0⟩, ⟨6, 8⟩])).maxSpreadMOA = some (mrad2moa s1) ∧
      (calcResults opsPyth { cfgW with targetDistance := 200 }
        (testGroup [⟨0, 0⟩, ⟨6, 8⟩])).maxSpreadMOA = some (mrad2moa s2) ∧
      s2 < s1 ∧ mrad2moa s2 < mrad2moa s1) :=
  ⟨((C7_angular_results opsPyth ⟨.inches, 1, 0, .yards⟩
      (testGroup [⟨0, 0⟩, ⟨6, 8⟩]) 100 200).1 (by norm_num)).1,
   (C7_angular_results opsPyth cfgW (testGroup [⟨0, 0⟩, ⟨6, 8⟩]) 100 200).2.2.1
     (by norm_num) (by norm_num) (by norm_num [testGroup])
     (by norm_num [meanRadiusOf, centroidOf, distSq, testGroup, opsPyth]),
   (C7_angular_results opsPyth cfgW (testGroup [⟨0, 0⟩, ⟨6, 8⟩]) 100 200).2.2.2
     (by norm_num) (by norm_num) (by norm_num [testGroup])
     (by norm_num [testGroup, opsPyth, maxPairDistSq, pairDistSqs, distSq, max_def])⟩

/-! ## Application state and interaction operations -/

/-- The component-level mutable state of `Group.svelte` relevant to
the annotation model: `mode`, `scale`, reference line, `groups`,
`activeGroupIndex`, `nextGroupId`, `selectedHoleIndex`, the loaded
bitmap's size and the cached viewport.  `selectedHoleIndex` is
`number | null` in the source; every non-null assignment is a list
position, so it is modelled as `Option ℕ` (the source's defensive
`>= 0` checks are then vacuously true).  Transient drag flags
(`isPanning`, `isDrawingRefLine`, …) are pointer-sequence state
handled outside the modelled operations. -/
structure AppState where
  mode : Mode
  scale : Option ℚ
  refLineStart : Option Pt
  refLineEnd : Option Pt
  groups : List ShotGroup
  activeGroupIndex : ℤ
  nextGroupId : ℕ
  selectedHoleIndex : Option ℕ
  imageSize : Option Pt
  lastViewport : Option ViewportState
  deriving Repr, DecidableEq

/-- Translation of `invalidateResults` from `Group.svelte` (lines 1419–1424). -/
def invalidateResults (idx : ℤ) (s : AppState) : AppState :=
  if 0 ≤ idx ∧ idx < (s.groups.length : ℤ) then
    match s.groups.get? idx.toNat with
    | some g =>
      if g.resultsValid then
        { s with groups := s.groups.set idx.toNat { g with resultsValid := false } }
      else s
    | none => s
  else s

/-- The state-level `calculateGroupResults` from `Group.svelte`
(lines 1321–1417): guarded by index range and a truthy `scale`, it
replaces the group with the recomputed one (`calcResults`). -/
def calculateGroupResults (ops : FloatOps) (cfg : Settings) (idx : ℤ)
    (s : AppState) : AppState :=
  if idx < 0 ∨ (s.groups.length : ℤ) ≤ idx then s
  else match s.scale with
    | none => s
    | some sc =>
      if sc = 0 then s
      else match s.groups.get? idx.toNat with
        | some g => { s with groups := s.groups.set idx.toNat (calcResults ops cfg g) }
        | none => s

/-- The deferred `tick().then(...)` recomputation of `calculateScale`
(`Group.svelte` lines 1312–1315): recompute every group's results. -/
def recomputeAll (ops : FloatOps) (cfg : Settings) (s : AppState) : AppState :=
  (List.range s.groups.length).foldl
    (fun st i => calculateGroupResults ops cfg (i : ℤ) st) s

/-- Result of `calculateScale`: the returned flag, whether `alert` was
shown, and the updated state. -/
structure ScaleResult where
  ok : Bool
  alerted : Bool
  state : AppState

/-- Translation of `calculateScale` from `Group.svelte` (lines 1275–1318): rejects a
missing reference line or non-positive `referenceLength` (silently,
setting `scale = null`), rejects a line shorter than
`MIN_SCALE_LINE_PIXELS = 5` (with an alert, clearing the line); on
success sets the scale, recomputes every group's real coordinates,
invalidates results and info-box anchors, then recomputes all
results. -/
def calculateScale (ops : FloatOps) (cfg : Settings) (s : AppState) :
    ScaleResult :=
  match s.refLineStart, s.refLineEnd with
  | some p1, some p2 =>
    if cfg.referenceLength ≤ 0 then ⟨false, false, { s with scale := none }⟩
    else
      let dx := p2.x - p1.x
      let dy := p2.y - p1.y
      let lenPx := ops.sqrt (dx * dx + dy * dy)
      if lenPx < 5 then
        ⟨false, true,
          { s with scale := none, refLineStart := none, refLineEnd := none }⟩
      else
        let sc := lenPx / cfg.referenceLength
        let s1 := { s with
          scale := some sc
          groups := s.groups.map (fun g =>
            { g with
              bulletHolesReal :=
                g.bulletHolesPixels.map (fun p => ⟨p.x / sc, p.y / sc⟩)
              aimingPointReal :=
                g.aimingPointPixels.map (fun p => ⟨p.x / sc, p.y / sc⟩)
              resultsValid := false
              infoBoxAnchorImage := none }) }
        ⟨true, false, recomputeAll ops cfg s1⟩
  | _, _ => ⟨false, false, { s with scale := none }⟩

/-- The scaling-mode branch of `handleWindowPointerUp`
(`Group.svelte` lines 1111–1120): attempt the scale computation; on
success enter `placingHoles`, otherwise clear the reference line. -/
def scalingPointerUp (ops : FloatOps) (cfg : Settings) (s : AppState) :
    AppState :=
  if s.refLineStart.isSome ∧ s.refLineEnd.isSome then
    let r := calculateScale ops cfg s
    if r.ok then { r.state with mode := .placingHoles }
    else { r.state with refLineStart := none, refLineEnd := none }
  else { s with refLineStart := none, refLineEnd := none }

/-- One step of the selection scan in `handleCanvasClick`'s
`selectingHole` branch (`Group.svelte` lines 1211–1221): keep the
accumulator unless the hole at index `i` is strictly within tolerance
and strictly closer than the best so far (the accumulator being
`some` corresponds to `found`; `none` to `minDistanceSq = Infinity`). -/
def selectStep (holes : List Pt) (click : Pt) (tolSq : ℚ) (i : ℕ)
    (acc : Option (ℕ × ℚ)) : Option (ℕ × ℚ) :=
  let dSq := distSq click (holes.getD i ⟨0, 0⟩)
  match acc with
  | none => if dSq < tolSq then some (i, dSq) else none
  | some (b, best) =>
    if dSq < tolSq ∧ dSq < best then some (i, dSq) else some (b, best)

/-- The descending index loop `for (i = length-1; i >= 0; i--)`. -/
def selectLoop (holes : List Pt) (click : Pt) (tolSq : ℚ) :
    ℕ → Option (ℕ × ℚ) → Option (ℕ × ℚ)
  | 0, acc => acc
  | i + 1, acc =>
    selectLoop holes click tolSq i (selectStep holes click tolSq i acc)

/-- The `selectingHole` hit test of `handleCanvasClick`
(`Group.svelte` lines 1202–1222): the tolerance is a fixed
`15 · dpr` rendering-buffer radius converted to image pixels through
the cached source rectangle; the result is `found ? closestIndex :
null`. -/
def selectHoleClick (dpr bufferW sWidth : ℚ) (holes : List Pt) (click : Pt) :
    Option ℕ :=
  let tolImg := 15 * dpr / bufferW * sWidth
  (selectLoop holes click (tolImg * tolImg) holes.length none).map Prod.fst

/-- Translation of `handleCanvasClick` from `Group.svelte` (lines 1152–1225), given
the pointer position already converted to image coordinates
(`iCoords`); the transient `ignoreNextClick`/`isPanning`/
`isDrawingRefLine` guards are pointer-sequence state assumed clear. -/
def handleCanvasClick (ops : FloatOps) (cfg : Settings) (dpr bufferW : ℚ)
    (iCoords : Pt) (s : AppState) : AppState :=
  if s.activeGroupIndex = -1 then s
  else match s.groups.get? s.activeGroupIndex.toNat with
  | none => s
  | some g =>
    match s.mode, s.scale with
    | .placingHoles, some sc =>
      if sc = 0 then s
      else
        let g' := { g with
          bulletHolesPixels := g.bulletHolesPixels ++ [iCoords]
          bulletHolesReal :=
            g.bulletHolesReal ++ [⟨iCoords.x / sc, iCoords.y / sc⟩] }
        let s1 := { s with
          groups := s.groups.set s.activeGroupIndex.toNat g'
          selectedHoleIndex := some (g'.bulletHolesPixels.length - 1) }
        calculateGroupResults ops cfg s.activeGroupIndex
          (invalidateResults s.activeGroupIndex s1)
    | .placingAim, some sc =>
      if sc = 0 then s
      else
        let g' := { g with
          aimingPointPixels := some iCoords
          aimingPointReal := some ⟨iCoords.x / sc, iCoords.y / sc⟩ }
        let s1 := { s with groups := s.groups.set s.activeGroupIndex.toNat g' }
        let s2 := calculateGroupResults ops cfg s.activeGroupIndex
          (invalidateResults s.activeGroupIndex s1)
        { s2 with mode := .placingHoles }
    | .selectingHole, _ =>
      match s.scale, s.lastViewport with
      | some sc, some vp =>
        if sc = 0 ∨ bufferW ≤ 0 then s
        else { s with selectedHoleIndex :=
          selectHoleClick dpr bufferW vp.sWidth g.bulletHolesPixels iCoords }
      | _, _ => s
    | _, _ => s

/-- The hole-dragging branch of `handleWindowPointerMove`
(`Group.svelte` lines 1008–1041), given the pointer position already
converted to image coordinates: move the selected hole to the pointer,
clamp to image bounds, update the real copy from the pixel copy,
invalidate results. -/
def dragHoleMove (curPtrI : Pt) (s : AppState) : AppState :=
  match s.selectedHoleIndex, s.scale with
  | some selIdx, some sc =>
    if sc = 0 then s
    else if s.activeGroupIndex = -1 then s
    else match s.groups.get? s.activeGroupIndex.toNat with
      | none => s
      | some g =>
        if selIdx < g.bulletHolesPixels.length then
          let px : Pt := match s.imageSize with
            | some im => ⟨max 0 (min curPtrI.x im.x), max 0 (min curPtrI.y im.y)⟩
            | none => curPtrI
          let g' := { g with
            bulletHolesPixels := g.bulletHolesPixels.set selIdx px
            bulletHolesReal :=
              g.bulletHolesReal.set selIdx ⟨px.x / sc, px.y / sc⟩ }
          invalidateResults s.activeGroupIndex
            { s with groups := s.groups.set s.activeGroupIndex.toNat g' }
        else s
  | _, _ => s

/-- Translation of `nudgeSelectedHolePx` from `Group.svelte` (lines 1512–1540):
offset the selected hole's pixel coordinates, clamp to image bounds,
update the real copy from the pixel copy, invalidate and recompute. -/
def nudgeSelectedHolePx (ops : FloatOps) (cfg : Settings) (dxI dyI : ℚ)
    (s : AppState) : AppState :=
  match s.scale, s.selectedHoleIndex with
  | some sc, some selIdx =>
    if sc = 0 then s
    else if s.activeGroupIndex = -1 then s
    else match s.groups.get? s.activeGroupIndex.toNat with
      | none => s
      | some g =>
        if selIdx < g.bulletHolesPixels.length then
          let hPx := g.bulletHolesPixels.getD selIdx ⟨0, 0⟩
          let moved : Pt := ⟨hPx.x + dxI, hPx.y + dyI⟩
          let clamped : Pt := match s.imageSize with
            | some im => ⟨max 0 (min moved.x im.x), max 0 (min moved.y im.y)⟩
            | none => moved
          let g' := { g with
            bulletHolesPixels := g.bulletHolesPixels.set selIdx clamped }
          let g'' :=
            if selIdx < g'.bulletHolesReal.length then
              { g' with bulletHolesReal :=
                  g'.bulletHolesReal.set selIdx ⟨clamped.x / sc, clamped.y / sc⟩ }
            else g'
          let s1 := { s with groups := s.groups.set s.activeGroupIndex.toNat g'' }
          calculateGroupResults ops cfg s.activeGroupIndex
            (invalidateResults s.activeGroupIndex s1)
        else s
  | _, _ => s

/-- The fresh group object built by `addNewGroup`
(`Group.svelte` lines 1428–1446). -/
def freshGroup (gid : ℕ) : ShotGroup :=
  { id := gid
    name := "Group " ++ toString (gid + 1)
    bulletHolesPixels := []
    bulletHolesReal := []
    centroidReal := none
    meanRadius := none
    meanRadiusMOA := none
    meanRadiusMRAD := none
    maxSpread := none
    maxSpreadMOA := none
    maxSpreadMRAD := none
    aimingPointPixels := none
    aimingPointReal := none
    offsetFromAim := none
    resultsValid := false
    infoBoxAnchorImage := none
    infoBoxSize := none }

/-- Translation of `addNewGroup` from `Group.svelte` (lines 1427–1454): append a
fresh group, make it active, clear the selection, and reset the mode
from the image/scale state. -/
def addNewGroup (s : AppState) : AppState :=
  let s1 := { s with
    nextGroupId := s.nextGroupId + 1
    groups := s.groups ++ [freshGroup s.nextGroupId]
    activeGroupIndex := (s.groups.length : ℤ)
    selectedHoleIndex := none }
  { s1 with mode :=
      if s1.imageSize.isNone then .loading
      else if s1.scale.getD 0 = 0 then .scaling
      else .placingHoles }

/-- Translation of `switchToGroup` from `Group.svelte` (lines 1455–1464). -/
def switchToGroup (idx : ℤ) (s : AppState) : AppState :=
  if 0 ≤ idx ∧ idx < (s.groups.length : ℤ) ∧ idx ≠ s.activeGroupIndex then
    let s1 := { s with activeGroupIndex := idx, selectedHoleIndex := none }
    { s1 with mode :=
        if s1.imageSize.isNone then .loading
        else if s1.scale.getD 0 = 0 then .scaling
        else .placingHoles }
  else s

/-- Translation of `deleteGroup` from `Group.svelte` (lines 1465–1488), confirmed
path (the `confirm()` dialog's cancel path leaves the state
untouched): remove the group; if none remain, immediately create a
fresh active group, otherwise decrement/clamp `activeGroupIndex`. -/
def deleteGroup (idx : ℤ) (s : AppState) : AppState :=
  if idx < 0 ∨ (s.groups.length : ℤ) ≤ idx then s
  else
    let groups' := s.groups.eraseIdx idx.toNat
    if groups'.length = 0 then
      addNewGroup { s with groups := groups', activeGroupIndex := -1 }
    else
      let a1 :=
        if s.activeGroupIndex = idx then max 0 (idx - 1)
        else if idx < s.activeGroupIndex then s.activeGroupIndex - 1
        else s.activeGroupIndex
      let a2 := if (groups'.length : ℤ) ≤ a1 then (groups'.length : ℤ) - 1 else a1
      { s with groups := groups', activeGroupIndex := a2 }

lemma switchToGroup_groups (idx : ℤ) (s : AppState) :
    (switchToGroup idx s).groups = s.groups := by
  unfold switchToGroup; split_ifs <;> rfl

/-- Claim C8: deleting the only existing group immediately creates a
fresh empty group and makes it active; the group list is never empty
after any add/switch/delete operation. -/
theorem C8_group_list_nonempty (s : AppState) (idx : ℤ) :
    (s.groups.length = 1 →
      (deleteGroup 0 s).groups.length = 1 ∧
      (deleteGroup 0 s).activeGroupIndex = 0 ∧
      ∃ g, (deleteGroup 0 s).groups = [g] ∧ g.bulletHolesPixels = [] ∧
        g.bulletHolesReal = [] ∧ g.aimingPointPixels = none ∧
        g.resultsValid = false) ∧
    (s.groups ≠ [] → (deleteGroup idx s).groups ≠ []) ∧
    ((addNewGroup s).groups ≠ []) ∧
    (s.groups ≠ [] → (switchToGroup idx s).groups ≠ []) := by
  refine ⟨?_, ?_, ?_, ?_⟩
  · intro h1
    obtain ⟨g0, hg⟩ := List.length_eq_one.mp h1
    refine ⟨?_, ?_, freshGroup s.nextGroupId, ?_, rfl, rfl, rfl, rfl⟩ <;>
      simp [deleteGroup, hg, addNewGroup, freshGroup]
  · intro hne
    unfold deleteGroup
    by_cases h1 : idx < 0 ∨ (s.groups.length : ℤ) ≤ idx
    · rw [if_pos h1]; exact hne
    · rw [if_neg h1]
      simp only []
      by_cases h2 : (s.groups.eraseIdx idx.toNat).length = 0
      · rw [if_pos h2]; simp [addNewGroup]
      · rw [if_neg h2]
        intro hc
        rw [show ((s.groups.eraseIdx idx.toNat) = []) ↔
          ((s.groups.eraseIdx idx.toNat).length = 0) from by simp] at hc
        exact h2 hc
  · simp [addNewGroup]
  · intro hne
    rw [switchToGroup_groups]
    exact hne

/-- Witness for `C8_group_list_nonempty` at a concrete single-group
state. -/
theorem C8_group_list_nonempty_witness :
    ((AppState.mk .placingHoles (some 100) none none [testGroup []] 0 1 none
        (some ⟨100, 100⟩) none).groups.length = 1 →
      (deleteGroup 0 (AppState.mk .placingHoles (some 100) none none
        [testGroup []] 0 1 none (some ⟨100, 100⟩) none)).groups.length = 1 ∧
      (deleteGroup 0 (AppState.mk .placingHoles (some 100) none none
        [testGroup []] 0 1 none (some ⟨100, 100⟩) none)).activeGroupIndex = 0 ∧
      ∃ g, (deleteGroup 0 (AppState.mk .placingHoles (some 100) none none
          [testGroup []] 0 1 none (some ⟨100, 100⟩) none)).groups = [g] ∧
        g.bulletHolesPixels = [] ∧ g.bulletHolesReal = [] ∧
        g.aimingPointPixels = none ∧ g.resultsValid = false) ∧
    ((AppState.mk .placingHoles (some 100) none none [testGroup []] 0 1 none
        (some ⟨100, 100⟩) none).groups ≠ [] →
      (deleteGroup 0 (AppState.mk .placingHoles (some 100) none none
        [testGroup []] 0 1 none (some ⟨100, 100⟩) none)).groups ≠ []) ∧
    ((addNewGroup (AppState.mk .placingHoles (some 100) none none
        [testGroup []] 0 1 none (some ⟨100, 100⟩) none)).groups ≠ []) ∧
    ((AppState.mk .placingHoles (some 100) none none [testGroup []] 0 1 none
        (some ⟨100, 100⟩) none).groups ≠ [] →
      (switchToGroup 0 (AppState.mk .placingHoles (some 100) none none
        [testGroup []] 0 1 none (some ⟨100, 100⟩) none)).groups ≠ []) :=
  C8_group_list_nonempty
    (AppState.mk .placingHoles (some 100) none none [testGroup []] 0 1 none
      (some ⟨100, 100⟩) none) 0

/-- Validity of the active-group index: it refers to an existing
group. -/
def activeValid (s : AppState) : Prop :=
  0 ≤ s.activeGroupIndex ∧ s.activeGroupIndex < (s.groups.length : ℤ)

/-- Claim C10: `activeGroupIndex` refers to an existing group after
every group-management operation — adding establishes it outright,
and switching or deleting (including the active group or one before
it) preserves it. -/
theorem C10_active_index_valid (s : AppState) (idx : ℤ) :
    activeValid (addNewGroup s) ∧
    (activeValid s → activeValid (switchToGroup idx s)) ∧
    (activeValid s → activeValid (deleteGroup idx s)) := by
  refine ⟨?_, ?_, ?_⟩
  · constructor <;> simp [addNewGroup]
  · intro hv
    unfold switchToGroup
    split_ifs with h
    · exact ⟨h.1, h.2.1⟩
    · exact hv
  · intro hv
    obtain ⟨hv0, hv1⟩ := hv
    unfold deleteGroup
    by_cases h1 : idx < 0 ∨ (s.groups.length : ℤ) ≤ idx
    · rw [if_pos h1]; exact ⟨hv0, hv1⟩
    · rw [if_neg h1]
      simp only []
      push_neg at h1
      have hidx : idx.toNat < s.groups.length := by omega
      have hlen : (s.groups.eraseIdx idx.toNat).length = s.groups.length - 1 :=
        List.length_eraseIdx_of_lt hidx
      by_cases h2 : (s.groups.eraseIdx idx.toNat).length = 0
      · rw [if_pos h2]
        constructor <;> simp [addNewGroup]
      · rw [if_neg h2]
        unfold activeValid
        simp only [hlen]
        split_ifs <;> constructor <;> push_cast <;> omega

/-- Witness for `C10_active_index_valid` at a concrete state. -/
theorem C10_active_index_valid_witness :
    activeValid (addNewGroup (AppState.mk .placingHoles (some 100) none none
      [testGroup []] 0 1 none (some ⟨100, 100⟩) none)) ∧
    (activeValid (AppState.mk .placingHoles (some 100) none none
        [testGroup []] 0 1 none (some ⟨100, 100⟩) none) →
      activeValid (switchToGroup 0 (AppState.mk .placingHoles (some 100) none
        none [testGroup []] 0 1 none (some ⟨100, 100⟩) none))) ∧
    (activeValid (AppState.mk .placingHoles (some 100) none none
        [testGroup []] 0 1 none (some ⟨100, 100⟩) none) →
      activeValid (deleteGroup 0 (AppState.mk .placingHoles (some 100) none
        none [testGroup []] 0 1 none (some ⟨100, 100⟩) none))) :=
  C10_active_index_valid
    (AppState.mk .placingHoles (some 100) none none [testGroup []] 0 1 none
      (some ⟨100, 100⟩) none) 0

/-- Loop invariant of the selection scan: with indices `[k, n)`
already processed, `none` means no processed hole was within
tolerance, and `some (b, d)` means `b` is the closest processed
in-tolerance hole (squared distance `d`), ties resolved to the largest
index. -/
def selInv (holes : List Pt) (click : Pt) (tolSq : ℚ) (k : ℕ)
    (acc : Option (ℕ × ℚ)) : Prop :=
  (acc = none → ∀ j, k ≤ j → j < holes.length →
    ¬ distSq click (holes.getD j ⟨0, 0⟩) < tolSq) ∧
  (∀ b d, acc = some (b, d) →
    k ≤ b ∧ b < holes.length ∧ d = distSq click (holes.getD b ⟨0, 0⟩) ∧
    d < tolSq ∧
    ∀ j, k ≤ j → j < holes.length →
      distSq click (holes.getD j ⟨0, 0⟩) < tolSq →
      d ≤ distSq click (holes.getD j ⟨0, 0⟩) ∧
      (distSq click (holes.getD j ⟨0, 0⟩) = d → j ≤ b))

lemma selStep_inv (holes : List Pt) (click : Pt) (tolSq : ℚ) (i : ℕ)
    (acc : Option (ℕ × ℚ)) (hi : i < holes.length)
    (hinv : selInv holes click tolSq (i + 1) acc) :
    selInv holes click tolSq i (selectStep holes click tolSq i acc) := by
  obtain ⟨hnone, hsome⟩ := hinv
  unfold selectStep
  cases acc with
  | none =>
    by_cases hd : distSq click (holes.getD i ⟨0, 0⟩) < tolSq
    · simp only [if_pos hd]
      refine ⟨by simp, ?_⟩
      intro b d hbd
      simp only [Option.some.injEq, Prod.mk.injEq] at hbd
      obtain ⟨rfl, rfl⟩ := hbd
      refine ⟨le_refl i, hi, rfl, hd, ?_⟩
      intro j hij hj hjtol
      rcases Nat.eq_or_lt_of_le hij with rfl | hlt
      · exact ⟨le_refl _, fun _ => le_refl _⟩
      · exact absurd hjtol (hnone rfl j hlt hj)
    · simp only [if_neg hd]
      refine ⟨?_, by simp⟩
      intro _ j hij hj
      rcases Nat.eq_or_lt_of_le hij with rfl | hlt
      · exact hd
      · exact hnone rfl j hlt hj
  | some bb =>
    obtain ⟨b, best⟩ := bb
    obtain ⟨hkb, hbn, hbd, hbtol, hbbest⟩ := hsome b best rfl
    by_cases hd : distSq click (holes.getD i ⟨0, 0⟩) < tolSq ∧
        distSq click (holes.getD i ⟨0, 0⟩) < best
    · simp only [if_pos hd]
      refine ⟨by simp, ?_⟩
      intro b' d' hbd'
      simp only [Option.some.injEq, Prod.mk.injEq] at hbd'
      obtain ⟨rfl, rfl⟩ := hbd'
      refine ⟨le_refl i, hi, rfl, hd.1, ?_⟩
      intro j hij hj hjtol
      rcases Nat.eq_or_lt_of_le hij with rfl | hlt
      · exact ⟨le_refl _, fun _ => le_refl _⟩
      · have hle := (hbbest j hlt hj hjtol).1
        constructor
        · linarith [hd.2]
        · intro heq; linarith [hd.2]
    · simp only [if_neg hd]
      refine ⟨by simp, ?_⟩
      intro b' d' hbd'
      simp only [Option.some.injEq, Prod.mk.injEq] at hbd'
      obtain ⟨rfl, rfl⟩ := hbd'
      refine ⟨by omega, hbn, hbd, hbtol, ?_⟩
      intro j hij hj hjtol
      rcases Nat.eq_or_lt_of_le hij with rfl | hlt
      · push_neg at hd
        have hbest := hd hjtol
        exact ⟨hbest, fun _ => by omega⟩
      · exact hbbest j hlt hj hjtol

lemma selLoop_inv (holes : List Pt) (click : Pt) (tolSq : ℚ) (k : ℕ)
    (acc : Option (ℕ × ℚ)) (hk : k ≤ holes.length)
    (hinv : selInv holes click tolSq k acc) :
    selInv holes click tolSq 0 (selectLoop holes click tolSq k acc) := by
  induction k generalizing acc with
  | zero => exact hinv
  | succ i ih =>
    exact ih (selectStep holes click tolSq i acc) (by omega)
      (selStep_inv holes click tolSq i acc (by omega) hinv)

lemma selInv_init (holes : List Pt) (click : Pt) (tolSq : ℚ) :
    selInv holes click tolSq holes.length none := by
  refine ⟨?_, by simp⟩
  intro _ j hj1 hj2
  omega

/-- Claim C6: in `selectingHole` mode a click selects the hole of the
active group with the smallest squared Euclidean distance in image
space among those within the tolerance (a fixed `15·dpr`
rendering-buffer radius converted to image pixels); when two holes are
exactly equidistant and both within tolerance, the hole with the
higher insertion index is selected; when no hole is within tolerance
the selection is cleared (`none`). -/
theorem C6_hole_selection (ops : FloatOps) (cfg : Settings)
    (dpr bufferW sWidth : ℚ) (holes : List Pt) (click : Pt)
    (s : AppState) (g : ShotGroup) (sc : ℚ) (vp : ViewportState) :
    (selectHoleClick dpr bufferW sWidth holes click = none ↔
      ∀ j, j < holes.length →
        ¬ distSq click (holes.getD j ⟨0, 0⟩) <
          15 * dpr / bufferW * sWidth * (15 * dpr / bufferW * sWidth)) ∧
    (∀ i, selectHoleClick dpr bufferW sWidth holes click = some i →
      i < holes.length ∧
      distSq click (holes.getD i ⟨0, 0⟩) <
        15 * dpr / bufferW * sWidth * (15 * dpr / bufferW * sWidth) ∧
      ∀ j, j < holes.length →
        distSq click (holes.getD j ⟨0, 0⟩) <
          15 * dpr / bufferW * sWidth * (15 * dpr / bufferW * sWidth) →
        distSq click (holes.getD i ⟨0, 0⟩) ≤
          distSq click (holes.getD j ⟨0, 0⟩) ∧
        (distSq click (holes.getD j ⟨0, 0⟩) =
            distSq click (holes.getD i ⟨0, 0⟩) → j ≤ i)) ∧
    (s.mode = .selectingHole → s.scale = some sc → sc ≠ 0 →
      s.lastViewport = some vp → 0 < bufferW →
      s.activeGroupIndex ≠ -1 →
      s.groups.get? s.activeGroupIndex.toNat = some g →
      (handleCanvasClick ops cfg dpr bufferW click s).selectedHoleIndex =
        selectHoleClick dpr bufferW vp.sWidth g.bulletHolesPixels click) := by
  have hinv := selLoop_inv holes click
    (15 * dpr / bufferW * sWidth * (15 * dpr / bufferW * sWidth))
    holes.length none (le_refl _) (selInv_init holes click _)
  refine ⟨?_, ?_, ?_⟩
  · constructor
    · intro hres j hj
      cases hloop : selectLoop holes click
          (15 * dpr / bufferW * sWidth * (15 * dpr / bufferW * sWidth))
          holes.length none with
      | none => exact hinv.1 hloop j (Nat.zero_le j) hj
      | some bd =>
        rw [selectHoleClick, hloop] at hres
        simp at hres
    · intro hall
      cases hloop : selectLoop holes click
          (15 * dpr / bufferW * sWidth * (15 * dpr / bufferW * sWidth))
          holes.length none with
      | none => rw [selectHoleClick, hloop]; rfl
      | some bd =>
        obtain ⟨b, d⟩ := bd
        obtain ⟨_, hbn, hbd, hbtol, _⟩ := hinv.2 b d hloop
        exact absurd (hbd ▸ hbtol) (hall b hbn)
  · intro i hres
    rw [selectHoleClick] at hres
    obtain ⟨⟨b, d⟩, hloop, hfst⟩ := Option.map_eq_some'.mp hres
    obtain ⟨rfl⟩ : b = i := hfst
    obtain ⟨_, hbn, hbd, hbtol, hbbest⟩ := hinv.2 i d hloop
    subst hbd
    exact ⟨hbn, hbtol, fun j hj hjtol => hbbest j (Nat.zero_le j) hj hjtol⟩
  · intro hm hs hsc hvp hbw hai hg
    simp only [handleCanvasClick, hm, hs, hvp, hg, if_neg hai]
    have hcond : ¬ (sc = 0 ∨ bufferW ≤ 0) := by
      push_neg
      exact ⟨hsc, hbw⟩
    rw [if_neg hcond]

/-- A concrete `selectingHole`-mode state fixture for witnesses: two
holes at (0,0) and (10,0), unit scale line already calibrated. -/
def sSel : AppState :=
  ⟨.selectingHole, some 100, none, none,
    [{ testGroup [] with bulletHolesPixels := [⟨0, 0⟩, ⟨10, 0⟩] }],
    0, 1, none, some ⟨100, 100⟩, some ⟨0, 0, 100, 100⟩⟩

/-- Witness for `C6_hole_selection`: a click at (0,0) with tolerance
15 image pixels selects hole 0, and the state-level handler stores
exactly that selection. -/
theorem C6_hole_selection_witness :
    ((0 : ℕ) < [(⟨0, 0⟩ : Pt), ⟨10, 0⟩].length ∧
      distSq ⟨0, 0⟩ ([(⟨0, 0⟩ : Pt), ⟨10, 0⟩].getD 0 ⟨0, 0⟩) <
        15 * 1 / 100 * 100 * (15 * 1 / 100 * 100) ∧
      ∀ j, j < [(⟨0, 0⟩ : Pt), ⟨10, 0⟩].length →
        distSq ⟨0, 0⟩ ([(⟨0, 0⟩ : Pt), ⟨10, 0⟩].getD j ⟨0, 0⟩) <
          15 * 1 / 100 * 100 * (15 * 1 / 100 * 100) →
        distSq ⟨0, 0⟩ ([(⟨0, 0⟩ : Pt), ⟨10, 0⟩].getD 0 ⟨0, 0⟩) ≤
          distSq ⟨0, 0⟩ ([(⟨0, 0⟩ : Pt), ⟨10, 0⟩].getD j ⟨0, 0⟩) ∧
        (distSq ⟨0, 0⟩ ([(⟨0, 0⟩ : Pt), ⟨10, 0⟩].getD j ⟨0, 0⟩) =
            distSq ⟨0, 0⟩ ([(⟨0, 0⟩ : Pt), ⟨10, 0⟩].getD 0 ⟨0, 0⟩) → j ≤ 0)) ∧
    (handleCanvasClick opsPyth cfgW 1 100 ⟨0, 0⟩ sSel).selectedHoleIndex =
      selectHoleClick 1 100 (100 : ℚ)
        ({ testGroup [] with
          bulletHolesPixels := [(⟨0, 0⟩ : Pt), ⟨10, 0⟩] }).bulletHolesPixels
        ⟨0, 0⟩ :=
  ⟨(C6_hole_selection opsPyth cfgW 1 100 100 [⟨0, 0⟩, ⟨10, 0⟩] ⟨0, 0⟩ sSel
      (testGroup []) 100 ⟨0, 0, 100, 100⟩).2.1 0
      (by norm_num [selectHoleClick, selectLoop, selectStep, distSq]),
   (C6_hole_selection opsPyth cfgW 1 100 100 [⟨0, 0⟩, ⟨10, 0⟩] ⟨0, 0⟩ sSel
      { testGroup [] with bulletHolesPixels := [⟨0, 0⟩, ⟨10, 0⟩] } 100
      ⟨0, 0, 100, 100⟩).2.2 rfl rfl (by norm_num) rfl (by norm_num)
      (by decide) rfl⟩

/-! ## Dual-storage coherence (claim C1) -/

/-- Dual-storage coherence of one group at scale `sc`: the stored
real-unit list mirrors the stored pixel list entrywise divided by the
scale. -/
def groupCoherent (sc : ℚ) (g : ShotGroup) : Prop :=
  g.bulletHolesReal.length = g.bulletHolesPixels.length ∧
  ∀ i, i < g.bulletHolesPixels.length →
    g.bulletHolesReal.getD i ⟨0, 0⟩ =
      ⟨(g.bulletHolesPixels.getD i ⟨0, 0⟩).x / sc,
       (g.bulletHolesPixels.getD i ⟨0, 0⟩).y / sc⟩

/-- Dual-storage coherence of the whole state: whenever the scale is
set, every group is coherent at it. -/
def stateCoherent (s : AppState) : Prop :=
  ∀ sc, s.scale = some sc → ∀ g ∈ s.groups, groupCoherent sc g

lemma groupCoherent_of_fields {sc : ℚ} {g g' : ShotGroup}
    (hpx : g'.bulletHolesPixels = g.bulletHolesPixels)
    (hr : g'.bulletHolesReal = g.bulletHolesReal)
    (h : groupCoherent sc g) : groupCoherent sc g' := by
  unfold groupCoherent at *
  rw [hpx, hr]
  exact h

lemma groupCoherent_calcResults (ops : FloatOps) (cfg : Settings) {sc : ℚ}
    {g : ShotGroup} (h : groupCoherent sc g) :
    groupCoherent sc (calcResults ops cfg g) :=
  groupCoherent_of_fields (calcResults_coords ops cfg g).1
    (calcResults_coords ops cfg g).2.1 h

lemma groupCoherent_append (sc : ℚ) (g : ShotGroup) (p : Pt)
    (h : groupCoherent sc g) :
    groupCoherent sc { g with
      bulletHolesPixels := g.bulletHolesPixels ++ [p]
      bulletHolesReal := g.bulletHolesReal ++ [⟨p.x / sc, p.y / sc⟩] } := by
  obtain ⟨hlen, hco⟩ := h
  refine ⟨by simp [hlen], ?_⟩
  intro i hi
  simp only [List.length_append, List.length_cons, List.length_nil] at hi
  by_cases hilt : i < g.bulletHolesPixels.length
  · have hire : i < g.bulletHolesReal.length := by omega
    show (g.bulletHolesReal ++ [(⟨p.x / sc, p.y / sc⟩ : Pt)]).getD i ⟨0, 0⟩ = _
    rw [List.getD_append _ _ _ _ hire, List.getD_append _ _ _ _ hilt]
    exact hco i hilt
  · have hieq : i = g.bulletHolesPixels.length := by omega
    subst hieq
    have h1 : (g.bulletHolesPixels ++ [p]).getD g.bulletHolesPixels.length
        ⟨0, 0⟩ = p := by simp
    have h2 : (g.bulletHolesReal ++ [(⟨p.x / sc, p.y / sc⟩ : Pt)]).getD
        g.bulletHolesPixels.length ⟨0, 0⟩ = ⟨p.x / sc, p.y / sc⟩ := by
      conv_lhs => rw [← hlen]
      simp
    show (g.bulletHolesReal ++ [(⟨p.x / sc, p.y / sc⟩ : Pt)]).getD
        g.bulletHolesPixels.length ⟨0, 0⟩ = _
    rw [h1, h2]

lemma groupCoherent_set (sc : ℚ) (g : ShotGroup) (i : ℕ) (p : Pt)
    (h : groupCoherent sc g) :
    groupCoherent sc { g with
      bulletHolesPixels := g.bulletHolesPixels.set i p
      bulletHolesReal := g.bulletHolesReal.set i ⟨p.x / sc, p.y / sc⟩ } := by
  obtain ⟨hlen, hco⟩ := h
  refine ⟨by simp [hlen], ?_⟩
  intro j hj
  simp only [List.length_set] at hj
  by_cases hij : i = j
  · subst hij
    have hire : i < g.bulletHolesReal.length := by omega
    show (g.bulletHolesReal.set i ⟨p.x / sc, p.y / sc⟩).getD i ⟨0, 0⟩ = _
    simp [List.getD_eq_getElem, List.length_set, hj, hire]
  · show (g.bulletHolesReal.set i ⟨p.x / sc, p.y / sc⟩).getD j ⟨0, 0⟩ = _
    simp only [List.getD, List.get?_eq_getElem?, List.getElem?_set_ne hij]
    have := hco j hj
    simp only [List.getD, List.get?_eq_getElem?] at this
    exact this

/-- The real-coordinate recomputation of `calculateScale` makes every
group coherent at the new scale outright. -/
lemma groupCoherent_recal (sc : ℚ) (g : ShotGroup) :
    groupCoherent sc { g with
      bulletHolesReal := g.bulletHolesPixels.map (fun p => ⟨p.x / sc, p.y / sc⟩)
      aimingPointReal := g.aimingPointPixels.map (fun p => ⟨p.x / sc, p.y / sc⟩)
      resultsValid := false
      infoBoxAnchorImage := none } := by
  refine ⟨by simp, ?_⟩
  intro i hi
  show (g.bulletHolesPixels.map fun p => (⟨p.x / sc, p.y / sc⟩ : Pt)).getD i ⟨0, 0⟩ = _
  rw [List.getD_eq_getElem _ _ (by simpa using hi),
    List.getD_eq_getElem _ _ hi, List.getElem_map]

lemma stateCoherent_invalidate (idx : ℤ) (s : AppState)
    (hs : stateCoherent s) : stateCoherent (invalidateResults idx s) := by
  unfold invalidateResults
  split_ifs with h1
  · cases hget : s.groups.get? idx.toNat with
    | none => exact hs
    | some g =>
      dsimp only
      split_ifs with h2
      · intro sc hsc g' hmem
        rcases List.mem_or_eq_of_mem_set hmem with hm | rfl
        · exact hs sc hsc g' hm
        · exact groupCoherent_of_fields rfl rfl
            (hs sc hsc g (List.get?_mem hget))
      · exact hs
  · exact hs

lemma stateCoherent_calcGroupResults (ops : FloatOps) (cfg : Settings)
    (idx : ℤ) (s : AppState) (hs : stateCoherent s) :
    stateCoherent (calculateGroupResults ops cfg idx s) := by
  unfold calculateGroupResults
  split_ifs with h1
  · exact hs
  · cases hscale : s.scale with
    | none => exact hs
    | some sc =>
      dsimp only
      split_ifs with h2
      · exact hs
      · cases hget : s.groups.get? idx.toNat with
        | none => exact hs
        | some g =>
          dsimp only
          intro sc' hsc' g' hmem
          have hscsc : sc = sc' := by simpa using hsc'
          subst hscsc
          rcases List.mem_or_eq_of_mem_set hmem with hm | rfl
          · exact hs sc hscale g' hm
          · exact groupCoherent_calcResults ops cfg
              (hs sc hscale g (List.get?_mem hget))

lemma stateCoherent_recomputeAll (ops : FloatOps) (cfg : Settings)
    (s : AppState) (hs : stateCoherent s) :
    stateCoherent (recomputeAll ops cfg s) := by
  unfold recomputeAll
  generalize List.range s.groups.length = l
  induction l generalizing s with
  | nil => exact hs
  | cons x xs ih =>
    exact ih _ (stateCoherent_calcGroupResults ops cfg x s hs)

/-- The operation `calculateScale` leaves the state coherent unconditionally: on
rejection the scale is unset (coherence is vacuous), on success every
group's real coordinates are recomputed from the pixel coordinates at
the new scale. -/
lemma calculateScale_coherent (ops : FloatOps) (cfg : Settings)
    (s : AppState) : stateCoherent (calculateScale ops cfg s).state := by
  unfold calculateScale
  cases hst : s.refLineStart with
  | none =>
    dsimp only
    intro sc hsc
    exact absurd hsc (by simp)
  | some p1 =>
    cases hen : s.refLineEnd with
    | none =>
      dsimp only
      intro sc hsc
      exact absurd hsc (by simp)
    | some p2 =>
      dsimp only
      split_ifs with h1 h2
      · intro sc hsc; exact absurd hsc (by simp)
      · intro sc hsc; exact absurd hsc (by simp)
      · apply stateCoherent_recomputeAll
        intro sc hsc g hmem
        obtain ⟨g0, hg0, rfl⟩ := List.mem_map.mp hmem
        have hsc' : sc = ops.sqrt ((p2.x - p1.x) * (p2.x - p1.x) +
            (p2.y - p1.y) * (p2.y - p1.y)) / cfg.referenceLength := by
          simpa using hsc.symm
        subst hsc'
        exact groupCoherent_recal _ g0

lemma handleCanvasClick_coherent (ops : FloatOps) (cfg : Settings)
    (dpr bufferW : ℚ) (iCoords : Pt) (s : AppState)
    (hs : stateCoherent s) :
    stateCoherent (handleCanvasClick ops cfg dpr bufferW iCoords s) := by
  unfold handleCanvasClick
  split_ifs with h1
  · exact hs
  · split
    · exact hs
    · rename_i g hget
      split
      · -- placingHoles, some sc
        rename_i sc hm hscale
        split_ifs with h2
        · exact hs
        · apply stateCoherent_calcGroupResults
          apply stateCoherent_invalidate
          intro sc' hsc' g' hmem
          have hscsc : sc = sc' := by
            rw [hscale] at hsc'
            simpa using hsc'
          subst hscsc
          rcases List.mem_or_eq_of_mem_set hmem with hmm | rfl
          · exact hs sc hscale g' hmm
          · exact groupCoherent_append sc g iCoords
              (hs sc hscale g (List.get?_mem hget))
      · -- placingAim, some sc
        rename_i sc hm hscale
        split_ifs with h2
        · exact hs
        · apply stateCoherent_calcGroupResults
          apply stateCoherent_invalidate
          intro sc' hsc' g' hmem
          have hscsc : sc = sc' := by
            rw [hscale] at hsc'
            simpa using hsc'
          subst hscsc
          rcases List.mem_or_eq_of_mem_set hmem with hmm | rfl
          · exact hs sc hscale g' hmm
          · exact groupCoherent_of_fields rfl rfl
              (hs sc hscale g (List.get?_mem hget))
      · -- selectingHole
        split
        · rename_i sc vp hscale hvp
          split_ifs with h2
          · exact hs
          · intro sc' hsc' g' hmem
            exact hs sc' hsc' g' hmem
        · exact hs
      · -- any other mode
        exact hs

lemma dragHoleMove_coherent (iCoords : Pt) (s : AppState)
    (hs : stateCoherent s) : stateCoherent (dragHoleMove iCoords s) := by
  unfold dragHoleMove
  cases hsel : s.selectedHoleIndex with
  | none => exact hs
  | some selIdx =>
    cases hscale : s.scale with
    | none => exact hs
    | some sc =>
      dsimp only
      split_ifs with h1 h2
      · exact hs
      · exact hs
      · cases hget : s.groups.get? s.activeGroupIndex.toNat with
        | none => exact hs
        | some g =>
          dsimp only
          split_ifs with h3
          · apply stateCoherent_invalidate
            intro sc' hsc' g' hmem
            have hscsc : sc = sc' := by simpa using hsc'
            subst hscsc
            rcases List.mem_or_eq_of_mem_set hmem with hmm | rfl
            · exact hs sc hscale g' hmm
            · exact groupCoherent_set sc g selIdx _
                (hs sc hscale g (List.get?_mem hget))
          · exact hs

lemma nudge_coherent (ops : FloatOps) (cfg : Settings) (dxI dyI : ℚ)
    (s : AppState) (hs : stateCoherent s) :
    stateCoherent (nudgeSelectedHolePx ops cfg dxI dyI s) := by
  unfold nudgeSelectedHolePx
  cases hscale : s.scale with
  | none => exact hs
  | some sc =>
    cases hsel : s.selectedHoleIndex with
    | none => exact hs
    | some selIdx =>
      dsimp only
      split_ifs with h1 h2
      · exact hs
      · exact hs
      · cases hget : s.groups.get? s.activeGroupIndex.toNat with
        | none => exact hs
        | some g =>
          dsimp only
          split_ifs with h3 h4
          · apply stateCoherent_calcGroupResults
            apply stateCoherent_invalidate
            intro sc' hsc' g' hmem
            have hscsc : sc = sc' := by simpa using hsc'
            subst hscsc
            rcases List.mem_or_eq_of_mem_set hmem with hmm | rfl
            · exact hs sc hscale g' hmm
            · exact groupCoherent_set sc g selIdx _
                (hs sc hscale g (List.get?_mem hget))
          · exfalso
            apply h4
            have hcog := hs sc hscale g (List.get?_mem hget)
            show selIdx < g.bulletHolesReal.length
            have hlen := hcog.1
            omega
          · exact hs

/-- Claim C1: dual-storage coherence.  `calculateScale` establishes
the invariant outright (on rejection the scale is unset, so the
invariant is vacuous); hole placement via `handleCanvasClick`, arrow
key nudging and pointer dragging preserve it (each updates the real
copy from the pixel copy); and under the invariant every group with
`resultsValid = true` satisfies `realCoordinate = pixelCoordinate /
scale` entrywise. -/
theorem C1_dual_storage_coherence (ops : FloatOps) (cfg : Settings)
    (dpr bufferW : ℚ) (iCoords : Pt) (dxI dyI : ℚ) (s : AppState) :
    stateCoherent (calculateScale ops cfg s).state ∧
    (stateCoherent s →
      stateCoherent (handleCanvasClick ops cfg dpr bufferW iCoords s)) ∧
    (stateCoherent s →
      stateCoherent (nudgeSelectedHolePx ops cfg dxI dyI s)) ∧
    (stateCoherent s → stateCoherent (dragHoleMove iCoords s)) ∧
    (stateCoherent s → ∀ sc, s.scale = some sc → ∀ g ∈ s.groups,
      g.resultsValid = true →
      g.bulletHolesReal.length = g.bulletHolesPixels.length ∧
      ∀ i, i < g.bulletHolesPixels.length →
        g.bulletHolesReal.getD i ⟨0, 0⟩ =
          ⟨(g.bulletHolesPixels.getD i ⟨0, 0⟩).x / sc,
           (g.bulletHolesPixels.getD i ⟨0, 0⟩).y / sc⟩) :=
  ⟨calculateScale_coherent ops cfg s,
   handleCanvasClick_coherent ops cfg dpr bufferW iCoords s,
   nudge_coherent ops cfg dxI dyI s,
   dragHoleMove_coherent iCoords s,
   fun hs sc hsc g hm _ => hs sc hsc g hm⟩

/-- A concrete coherent state fixture: one group at scale 2, one hole
with pixel coordinates (2,4) and real copy (1,2), results valid. -/
def sCoh : AppState :=
  ⟨.placingHoles, some 2, none, none,
    [{ testGroup [⟨1, 2⟩] with
      bulletHolesPixels := [⟨2, 4⟩]
      resultsValid := true }],
    0, 1, some 0, some ⟨100, 100⟩, some ⟨0, 0, 100, 100⟩⟩

/-- Witness for `C1_dual_storage_coherence`: placing a hole at (3,4)
on a concrete coherent state keeps the state coherent. -/
theorem C1_dual_storage_coherence_witness :
    stateCoherent (handleCanvasClick opsPyth cfgW 1 100 ⟨3, 4⟩ sCoh) :=
  (C1_dual_storage_coherence opsPyth cfgW 1 100 ⟨3, 4⟩ 0 0 sCoh).2.1
    (by
      intro sc hsc g hm
      simp only [sCoh] at hsc hm
      obtain rfl : (2 : ℚ) = sc := by simpa using hsc
      simp only [List.mem_singleton] at hm
      subst hm
      constructor
      · simp [testGroup]
      · intro i hi
        simp only [testGroup] at hi ⊢
        simp only [List.length_cons, List.length_nil] at hi
        interval_cases i
        · simp [List.getD]
          norm_num)

/-! ## Calibration rejection (claim C4) -/

lemma calculateGroupResults_mode (ops : FloatOps) (cfg : Settings)
    (idx : ℤ) (s : AppState) :
    (calculateGroupResults ops cfg idx s).mode = s.mode := by
  unfold calculateGroupResults
  split_ifs with h1
  · rfl
  · cases hscale : s.scale with
    | none => rfl
    | some sc =>
      dsimp only
      split_ifs with h2
      · rfl
      · cases s.groups.get? idx.toNat <;> rfl

lemma calculateGroupResults_scale (ops : FloatOps) (cfg : Settings)
    (idx : ℤ) (s : AppState) :
    (calculateGroupResults ops cfg idx s).scale = s.scale := by
  unfold calculateGroupResults
  split_ifs with h1
  · rfl
  · cases hscale : s.scale with
    | none => exact hscale
    | some sc =>
      dsimp only
      split_ifs with h2
      · exact hscale
      · cases s.groups.get? idx.toNat with
        | none => exact hscale
        | some g => rfl

lemma recomputeAll_mode (ops : FloatOps) (cfg : Settings) (s : AppState) :
    (recomputeAll ops cfg s).mode = s.mode := by
  unfold recomputeAll
  generalize List.range s.groups.length = l
  induction l generalizing s with
  | nil => rfl
  | cons x xs ih =>
    exact (ih (calculateGroupResults ops cfg (x : ℤ) s)).trans
      (calculateGroupResults_mode ops cfg (x : ℤ) s)

lemma recomputeAll_scale (ops : FloatOps) (cfg : Settings) (s : AppState) :
    (recomputeAll ops cfg s).scale = s.scale := by
  unfold recomputeAll
  generalize List.range s.groups.length = l
  induction l generalizing s with
  | nil => rfl
  | cons x xs ih =>
    exact (ih (calculateGroupResults ops cfg (x : ℤ) s)).trans
      (calculateGroupResults_scale ops cfg (x : ℤ) s)

lemma calculateScale_mode (ops : FloatOps) (cfg : Settings) (s : AppState) :
    (calculateScale ops cfg s).state.mode = s.mode := by
  unfold calculateScale
  rcases hst : s.refLineStart with _ | p1
  · rfl
  · rcases hen : s.refLineEnd with _ | p2
    · rfl
    · dsimp only
      split_ifs with h1 h2
      · rfl
      · rfl
      · exact recomputeAll_mode ops cfg _

/-- Claim C4 (amended): `calculateScale` requires both reference-line
endpoints and `referenceLength > 0`, and rejects a line shorter than
`MIN_SCALE_LINE_PIXELS = 5`.  On any rejection it returns failure and
*clears* the Scale to unset (a previously set Scale is not retained);
the user is alerted only in the short-line case (the missing-input
case rejects silently); the mode is left unchanged (so it remains
`scaling`); and no group's points or results are modified.  With valid
inputs and a long-enough line it succeeds and stores
`lenPx / referenceLength`. -/
theorem C4_calibration_rejection (ops : FloatOps) (cfg : Settings)
    (s : AppState) :
    ((s.refLineStart = none ∨ s.refLineEnd = none ∨ cfg.referenceLength ≤ 0) →
      (calculateScale ops cfg s).ok = false ∧
      (calculateScale ops cfg s).alerted = false ∧
      (calculateScale ops cfg s).state.scale = none ∧
      (calculateScale ops cfg s).state.groups = s.groups ∧
      (calculateScale ops cfg s).state.mode = s.mode) ∧
    (∀ p1 p2, s.refLineStart = some p1 → s.refLineEnd = some p2 →
      0 < cfg.referenceLength →
      ops.sqrt ((p2.x - p1.x) * (p2.x - p1.x) +
        (p2.y - p1.y) * (p2.y - p1.y)) < 5 →
      (calculateScale ops cfg s).ok = false ∧
      (calculateScale ops cfg s).alerted = true ∧
      (calculateScale ops cfg s).state.scale = none ∧
      (calculateScale ops cfg s).state.refLineStart = none ∧
      (calculateScale ops cfg s).state.refLineEnd = none ∧
      (calculateScale ops cfg s).state.groups = s.groups ∧
      (calculateScale ops cfg s).state.mode = s.mode) ∧
    ((calculateScale ops cfg s).ok = false →
      (scalingPointerUp ops cfg s).mode = s.mode) ∧
    (∀ p1 p2, s.refLineStart = some p1 → s.refLineEnd = some p2 →
      0 < cfg.referenceLength →
      ¬ ops.sqrt ((p2.x - p1.x) * (p2.x - p1.x) +
        (p2.y - p1.y) * (p2.y - p1.y)) < 5 →
      (calculateScale ops cfg s).ok = true ∧
      (calculateScale ops cfg s).state.scale =
        some (ops.sqrt ((p2.x - p1.x) * (p2.x - p1.x) +
          (p2.y - p1.y) * (p2.y - p1.y)) / cfg.referenceLength)) := by
  refine ⟨?_, ?_, ?_, ?_⟩
  · intro h
    unfold calculateScale
    rcases hst : s.refLineStart with _ | p1
    · exact ⟨rfl, rfl, rfl, rfl, rfl⟩
    · rcases hen : s.refLineEnd with _ | p2
      · exact ⟨rfl, rfl, rfl, rfl, rfl⟩
      · rcases h with h | h | h
        · simp [hst] at h
        · simp [hen] at h
        · dsimp only
          rw [if_pos h]
          exact ⟨rfl, rfl, rfl, rfl, rfl⟩
  · intro p1 p2 hst hen hpos hshort
    unfold calculateScale
    rw [hst, hen]
    dsimp only
    rw [if_neg (not_le.mpr hpos), if_pos hshort]
    exact ⟨rfl, rfl, rfl, rfl, rfl, rfl, rfl⟩
  · intro hok
    unfold scalingPointerUp
    split_ifs with h1
    · simp only [hok, Bool.false_eq_true, if_false]
      exact calculateScale_mode ops cfg s
    · rfl
  · intro p1 p2 hst hen hpos hlong
    unfold calculateScale
    rw [hst, hen]
    dsimp only
    rw [if_neg (not_le.mpr hpos), if_neg hlong]
    refine ⟨rfl, ?_⟩
    rw [recomputeAll_scale]

/-- A concrete state with a previously computed Scale of 100 and a
freshly drawn 3-pixel reference line. -/
def sPrev : AppState :=
  ⟨.scaling, some 100, some ⟨0, 0⟩, some ⟨3, 0⟩, [], -1, 0, none,
    some ⟨100, 100⟩, none⟩

/-- Claim C4, counterexample to the claim as stated: rejecting a
too-short reference line does not retain the previous Scale value —
the stored Scale of 100 is cleared to unset. -/
theorem C4_counterexample :
    sPrev.scale = some 100 ∧
    (calculateScale opsPyth cfgW sPrev).ok = false ∧
    (calculateScale opsPyth cfgW sPrev).state.scale = none := by
  refine ⟨rfl, ?_, ?_⟩ <;>
    norm_num [calculateScale, sPrev, opsPyth, cfgW]

/-- Witness for `C4_calibration_rejection`: the short-line rejection
at the concrete 3-pixel line. -/
theorem C4_calibration_rejection_witness :
    (calculateScale opsPyth cfgW sPrev).ok = false ∧
    (calculateScale opsPyth cfgW sPrev).alerted = true ∧
    (calculateScale opsPyth cfgW sPrev).state.scale = none ∧
    (calculateScale opsPyth cfgW sPrev).state.refLineStart = none ∧
    (calculateScale opsPyth cfgW sPrev).state.refLineEnd = none ∧
    (calculateScale opsPyth cfgW sPrev).state.groups = sPrev.groups ∧
    (calculateScale opsPyth cfgW sPrev).state.mode = sPrev.mode :=
  (C4_calibration_rejection opsPyth cfgW sPrev).2.1 ⟨0, 0⟩ ⟨3, 0⟩ rfl rfl
    (by norm_num [cfgW]) (by norm_num [opsPyth])

end Moaui
